import Mathlib

/-!
# uart_rx_sync: header-synchronised UART reception

A shallow embedding of `UserCode/drivers/uart_rx_sync.c` and
`UserCode/drivers/uart_rx_sync.h`.

* A byte is a `Fin 256`; a pointer into memory is the list of bytes of the
  region it points into together with a natural-number offset.  Reading
  outside the region is undefined behaviour and is reported as a fault.
* `size_t` and `uint32_t` values are natural numbers; every sum, difference
  and increment of the source reduces modulo `2 ^ 32` explicitly.
* The HAL (the transport) is external: every call made to it, and every call
  of the user's decoder, is appended to a trace of events in program order.
* For byte streams the transport is modelled from the specification: a byte is
  stored at the outstanding reception, whose completion runs the callback.
-/

namespace UartRxSync

/-- One octet, `uint8_t`. -/
abbrev Byte := Fin 256

/-- How a run of the C code can fail to return normally. -/
inductive Fault where
  /-- A parameter assertion rejected its argument. -/
  | assert_failed
  /-- A read outside the memory a pointer refers to. -/
  | undefined_behaviour
  deriving DecidableEq, Repr

instance instDecidableEqExcept {ε α : Type} [DecidableEq ε] [DecidableEq α] :
    DecidableEq (Except ε α)
  | .ok a, .ok b => if h : a = b then isTrue (by rw [h]) else isFalse (by simp [h])
  | .error a, .error b => if h : a = b then isTrue (by rw [h]) else isFalse (by simp [h])
  | .ok _, .error _ => isFalse (by simp)
  | .error _, .ok _ => isFalse (by simp)

/-- The number of values of `size_t` and of `uint32_t` on the 32-bit target of
the HAL. -/
def SIZE_MOD : Nat := 2 ^ 32

/-- Addition on `size_t`. -/
def size_add (a b : Nat) : Nat := (a + b) % SIZE_MOD

/-- Subtraction on `size_t`: wraps around below zero. -/
def size_sub (a b : Nat) : Nat := (a + SIZE_MOD - b % SIZE_MOD) % SIZE_MOD

/-- The macro `UART_RX_SYNC_MAX_HDR` of `uart_rx_sync.h`, at its default. -/
def UART_RX_SYNC_MAX_HDR : Nat := 4

/-- One loop of `check_header`:
`for (ptr = buffer + ptr, end = buffer + end_; ptr != end; ptr++) if (*ptr != *hdr++) return false;`.
The header pointer `hp` is shared by both loops, so the loop hands it back:
`some hp` when the loop ran to its end, `none` when it returned `false`.
The counter `fuel` bounds the number of iterations; `check_header` passes
more than the size of the buffer, and a pointer that has left the buffer
faults on its read before the counter can reach zero. -/
def check_loop (hdr buffer : List Byte) :
    Nat → Nat → Nat → Nat → Except Fault (Option Nat)
  | 0, _, _, _ => .error .undefined_behaviour
  | fuel + 1, ptr, end_, hp =>
    if ptr = end_ then .ok (some hp)
    else
      match buffer[ptr]?, hdr[hp]? with
      | some b, some h =>
        if b ≠ h then .ok none
        else check_loop hdr buffer fuel (ptr + 1) end_ (hp + 1)
      | _, _ => .error .undefined_behaviour

/-- The static function `check_header(hdr, buffer, idx, len)`: compare
`buffer[idx..len)` and then `buffer[0..idx)` with consecutive header bytes. -/
def check_header (hdr buffer : List Byte) (idx len : Nat) : Except Fault Bool :=
  match check_loop hdr buffer (buffer.length + 1) idx len 0 with
  | .error e => .error e
  | .ok none => .ok false
  | .ok (some hp) =>
    match check_loop hdr buffer (buffer.length + 1) 0 idx hp with
    | .error e => .error e
    | .ok none => .ok false
    | .ok (some _) => .ok true

/-! ## The data model of `uart_rx_sync.h` -/

/-- The enumeration `UartRxSync_SyncState_t`. -/
inductive UartRxSync_SyncState_t where
  | UART_RX_SYNC_WAIT_HEAD
  | UART_RX_SYNC_RECEIVING
  | UART_RX_SYNC_DMA_ACTIVE
  deriving DecidableEq, Repr

open UartRxSync_SyncState_t

/-- The transfer mode of a DMA stream, `hdmarx->Init.Mode`: a HAL type declared
outside the driver, of which the code only tests equality with `DMA_CIRCULAR`. -/
inductive DMA_Mode where
  | DMA_NORMAL
  | DMA_CIRCULAR
  deriving DecidableEq, Repr

/-- The part of the HAL's `DMA_HandleTypeDef` the code reads. -/
structure DMA_HandleTypeDef where
  Init_Mode : DMA_Mode
  deriving DecidableEq, Repr

/-- The part of the HAL's `UART_HandleTypeDef` the code reads: the receive DMA
handle (a pointer, `none` for `NULL`) and the error code. -/
structure UART_HandleTypeDef where
  hdmarx : Option DMA_HandleTypeDef
  ErrorCode : Nat
  deriving DecidableEq, Repr

/-- The HAL's `HAL_UART_ERROR_NONE`, declared outside the driver; the code only
compares `ErrorCode` with it. -/
def HAL_UART_ERROR_NONE : Nat := 0

/-- The type `UartRxSync_DecodeData_Callback`: `bool (*)(void* user, const uint8_t* data)`.
The user pointer is its address; the data pointer is the memory from the
pointed byte to the end of the buffer. -/
abbrev UartRxSync_DecodeData_Callback := Nat → List Byte → Bool

/-- What the code asks of its collaborators, in program order: the HAL calls
with their arguments (a buffer pointer is its offset from `sync->buffer`) and
the calls of the user's decoder (offset of the data pointer and the memory it
points to). -/
inductive Event where
  | CLEAR_PEFLAG
  | CLEAR_FEFLAG
  | CLEAR_NEFLAG
  | CLEAR_OREFLAG
  | AbortReceive
  | Receive_IT (offset size : Nat)
  | Receive_DMA (offset size : Nat)
  | decode_call (offset : Nat) (view : List Byte)
  deriving DecidableEq, Repr

/-- The struct `UartRxSync_t`.  `huart` is the handle the pointer refers to,
`buffer` the content of the memory region `sync->buffer` points to, `hdr` the
content of the array `hdr[UART_RX_SYNC_MAX_HDR]`, `user` an address; the six
counters are those of the `DEBUG` build. -/
structure UartRxSync_t where
  huart : UART_HandleTypeDef
  sync_state : UartRxSync_SyncState_t
  hdr : List Byte
  hdr_len : Nat
  hdr_idx : Nat
  frame_len : Nat
  buffer : List Byte
  user : Nat
  decode : UartRxSync_DecodeData_Callback
  hdr_match_cnt : Nat
  hdr_error_cnt : Nat
  data_received_cnt : Nat
  decode_success_cnt : Nat
  decode_fail_cnt : Nat
  rx_error_event_cnt : Nat

/-- The anonymous struct `header` of `UartRxSync_Config_t`; `content` is the
memory the pointer refers to. -/
structure UartRxSync_Header_t where
  len : Nat
  content : List Byte
  deriving DecidableEq, Repr

/-- The struct `UartRxSync_Config_t`.  A pointer that the code dereferences or
stores as a region is `none` when it is `NULL`; `user` is an address, `0` for
`NULL`. -/
structure UartRxSync_Config_t where
  huart : Option UART_HandleTypeDef
  buffer : Option (List Byte)
  header : UartRxSync_Header_t
  frame_len : Nat
  user : Nat
  decode_data_callback : Option UartRxSync_DecodeData_Callback

/-! ## The counter macros

With `DEBUG` defined a macro increments its `uint32_t` counter; without it the
macro does nothing.  The build is the parameter `DEBUG` of every function that
uses one. -/

/-- `x++` on a `uint32_t`. -/
def incr32 (x : Nat) : Nat := (x + 1) % SIZE_MOD

/-- The macro `HDR_MATCH`. -/
def HDR_MATCH (DEBUG : Bool) (sync : UartRxSync_t) : UartRxSync_t :=
  if DEBUG then { sync with hdr_match_cnt := incr32 sync.hdr_match_cnt } else sync

/-- The macro `HDR_ERROR`. -/
def HDR_ERROR (DEBUG : Bool) (sync : UartRxSync_t) : UartRxSync_t :=
  if DEBUG then { sync with hdr_error_cnt := incr32 sync.hdr_error_cnt } else sync

/-- The macro `RECEIVED`. -/
def RECEIVED (DEBUG : Bool) (sync : UartRxSync_t) : UartRxSync_t :=
  if DEBUG then { sync with data_received_cnt := incr32 sync.data_received_cnt } else sync

/-- The macro `DECODE_SUCCESS`. -/
def DECODE_SUCCESS (DEBUG : Bool) (sync : UartRxSync_t) : UartRxSync_t :=
  if DEBUG then { sync with decode_success_cnt := incr32 sync.decode_success_cnt } else sync

/-- The macro `DECODE_FAILED`. -/
def DECODE_FAILED (DEBUG : Bool) (sync : UartRxSync_t) : UartRxSync_t :=
  if DEBUG then { sync with decode_fail_cnt := incr32 sync.decode_fail_cnt } else sync

/-- The macro `RX_ERROR_EVENT`. -/
def RX_ERROR_EVENT (DEBUG : Bool) (sync : UartRxSync_t) : UartRxSync_t :=
  if DEBUG then { sync with rx_error_event_cnt := incr32 sync.rx_error_event_cnt } else sync

/-! ## The functions of `uart_rx_sync.c` -/

/-- Modelled from the spec: `assert_param`, the HAL's assertion macro, is
declared outside the driver; initialization "fails fatally/aborts on
violation", so a false condition ends the run with `assert_failed`. -/
def assert_param {α : Type} (cond : Bool) (k : Except Fault α) : Except Fault α :=
  if cond then k else .error .assert_failed

/-- The library call `memcpy(dest, src, n)` on the contents of the two regions: the first
`n` bytes of `dest` become those of `src`; both regions must hold `n` bytes. -/
def memcpy (dest src : List Byte) (n : Nat) : Except Fault (List Byte) :=
  if n ≤ src.length ∧ n ≤ dest.length then .ok (src.take n ++ dest.drop n)
  else .error .undefined_behaviour

/-- The function `UartRxSync_Init(sync, config)`.  `sync` is the memory the context is built in:
the fields the function does not assign keep what it holds. -/
def UartRxSync_Init (sync : UartRxSync_t) (config : UartRxSync_Config_t) :
    Except Fault (UartRxSync_t × List Event) :=
  assert_param (config.huart ≠ none) <|
  assert_param (config.header.len > 0) <|
  assert_param (config.frame_len > config.header.len) <|
  assert_param (config.header.len ≤ UART_RX_SYNC_MAX_HDR) <|
  assert_param (config.buffer ≠ none) <|
  assert_param (config.user ≠ 0) <|
  assert_param (config.decode_data_callback.isSome) <|
  match config.huart, config.buffer, config.decode_data_callback with
  | some huart, some buffer, some callback =>
    assert_param (huart.hdmarx ≠ none) <|
    match huart.hdmarx with
    | none => .error .undefined_behaviour
    | some hdmarx =>
      assert_param (hdmarx.Init_Mode = DMA_Mode.DMA_CIRCULAR) <|
      match memcpy sync.hdr config.header.content config.header.len with
      | .error e => .error e
      | .ok hdr =>
        .ok ({ sync with
                huart := huart
                hdr_len := config.header.len
                hdr := hdr
                frame_len := config.frame_len
                buffer := buffer
                user := config.user
                decode := callback
                hdr_idx := 0
                sync_state := UART_RX_SYNC_WAIT_HEAD },
             [Event.Receive_IT 0 1])
  | _, _, _ => .error .undefined_behaviour

/-- The static function `decode(sync)`: call the user's decoder on `sync->buffer + sync->hdr_len`
and count the outcome. -/
def decode (DEBUG : Bool) (sync : UartRxSync_t) : UartRxSync_t × List Event :=
  let view := sync.buffer.drop sync.hdr_len
  if !sync.decode sync.user view then
    (DECODE_FAILED DEBUG sync, [Event.decode_call sync.hdr_len view])
  else
    (DECODE_SUCCESS DEBUG sync, [Event.decode_call sync.hdr_len view])

/-- The function `UartRxSync_RxErrorHandler(sync)`. -/
def UartRxSync_RxErrorHandler (DEBUG : Bool) (sync : UartRxSync_t) :
    UartRxSync_t × List Event :=
  if sync.huart.ErrorCode = HAL_UART_ERROR_NONE then
    (sync, [])
  else
    let sync := RX_ERROR_EVENT DEBUG sync
    let sync :=
      if sync.sync_state ≠ UART_RX_SYNC_WAIT_HEAD then
        { sync with sync_state := UART_RX_SYNC_WAIT_HEAD }
      else sync
    ({ sync with hdr_idx := 0 },
     [Event.CLEAR_PEFLAG, Event.CLEAR_FEFLAG, Event.CLEAR_NEFLAG, Event.CLEAR_OREFLAG,
      Event.AbortReceive, Event.Receive_IT 0 1])

/-- The function `UartRxSync_RxCallback(sync)`. -/
def UartRxSync_RxCallback (DEBUG : Bool) (sync : UartRxSync_t) :
    Except Fault (UartRxSync_t × List Event) :=
  match sync.sync_state with
  | UART_RX_SYNC_DMA_ACTIVE =>
    let sync := RECEIVED DEBUG sync
    match check_header sync.hdr sync.buffer 0 sync.hdr_len with
    | .error e => .error e
    | .ok false =>
      let sync := HDR_ERROR DEBUG sync
      .ok ({ sync with sync_state := UART_RX_SYNC_WAIT_HEAD, hdr_idx := 0 },
           [Event.AbortReceive, Event.Receive_IT 0 1])
    | .ok true => .ok (decode DEBUG sync)
  | UART_RX_SYNC_WAIT_HEAD =>
    let idx_next := size_add sync.hdr_idx 1
    let idx_next := if idx_next = sync.hdr_len then 0 else idx_next
    match sync.buffer[sync.hdr_idx]?, sync.hdr[size_sub sync.hdr_len 1]? with
    | some newest, some last =>
      let keep_searching : Except Fault (UartRxSync_t × List Event) :=
        .ok ({ sync with hdr_idx := idx_next }, [Event.Receive_IT idx_next 1])
      if newest = last then
        match check_header sync.hdr sync.buffer idx_next sync.hdr_len with
        | .error e => .error e
        | .ok true =>
          let sync := HDR_MATCH DEBUG sync
          .ok ({ sync with sync_state := UART_RX_SYNC_RECEIVING },
               [Event.Receive_DMA sync.hdr_len (size_sub sync.frame_len sync.hdr_len)])
        | .ok false => keep_searching
      else keep_searching
    | _, _ => .error .undefined_behaviour
  | UART_RX_SYNC_RECEIVING =>
    let sync := RECEIVED DEBUG sync
    let requests := [Event.AbortReceive, Event.Receive_DMA 0 sync.frame_len]
    let sync := { sync with sync_state := UART_RX_SYNC_DMA_ACTIVE }
    let decoded := decode DEBUG sync
    .ok (decoded.1, requests ++ decoded.2)

/-- The inline function `UartRxSync_isConnected(sync)` of `uart_rx_sync.h`: the value returned,
and the context as the call leaves it. -/
def UartRxSync_isConnected (sync : UartRxSync_t) : Bool × UartRxSync_t :=
  (sync.sync_state == UART_RX_SYNC_DMA_ACTIVE, sync)

/-! ## Predicates of the specification -/

/-- The cyclic window of `buffer[0..len)` that starts at `idx` equals the header. -/
def window_matches (hdr buffer : List Byte) (idx len : Nat) : Prop :=
  ∀ i, i < len → buffer[(idx + i) % len]? = hdr[i]?

instance (hdr buffer : List Byte) (idx len : Nat) :
    Decidable (window_matches hdr buffer idx len) := by
  unfold window_matches; infer_instance

/-- The memory the handlers read is there: `hdr` is the array of
`UART_RX_SYNC_MAX_HDR` bytes of the struct, the header fits in it, and the
buffer holds at least the header. -/
def memory_ok (sync : UartRxSync_t) : Prop :=
  sync.hdr.length = UART_RX_SYNC_MAX_HDR ∧ sync.hdr_len ≤ UART_RX_SYNC_MAX_HDR ∧
    sync.hdr_len ≤ sync.buffer.length

instance (sync : UartRxSync_t) : Decidable (memory_ok sync) := by
  unfold memory_ok; infer_instance

/-- The decoder invocations of a trace. -/
def decode_calls (trace : List Event) : List Event :=
  trace.filter fun e => match e with
    | .decode_call _ _ => true
    | _ => false

/-- The transport requests of a trace: everything but the decoder invocations. -/
def transport_requests (trace : List Event) : List Event :=
  trace.filter fun e => match e with
    | .decode_call _ _ => false
    | _ => true

/-- A context for the examples: header `AA 55`, frames of six bytes, the
header in place in the buffer, searching with the newest byte at index 1. -/
def ctx_example : UartRxSync_t where
  huart := { hdmarx := some { Init_Mode := DMA_Mode.DMA_CIRCULAR }, ErrorCode := 0 }
  sync_state := UART_RX_SYNC_WAIT_HEAD
  hdr := [0xAA, 0x55, 0, 0]
  hdr_len := 2
  hdr_idx := 1
  frame_len := 6
  buffer := [0xAA, 0x55, 1, 2, 3, 4]
  user := 1
  decode := fun _ _ => true
  hdr_match_cnt := 0
  hdr_error_cnt := 0
  data_received_cnt := 0
  decode_success_cnt := 0
  decode_fail_cnt := 0
  rx_error_event_cnt := 0

/-- The example context with a frame in flight after the header match. -/
def ctx_receiving : UartRxSync_t :=
  { ctx_example with sync_state := UART_RX_SYNC_RECEIVING }

/-- The example context in steady state, the header in place in the buffer. -/
def ctx_dma_active : UartRxSync_t :=
  { ctx_example with sync_state := UART_RX_SYNC_DMA_ACTIVE }

/-- The example context in steady state after a slip: `buffer[1]` is not `55`. -/
def ctx_desync : UartRxSync_t :=
  { ctx_example with
      sync_state := UART_RX_SYNC_DMA_ACTIVE, buffer := [0xAA, 0x54, 1, 2, 3, 4] }

/-- The example context in steady state with an overrun reported by the
transport (`HAL_UART_ERROR_ORE`). -/
def ctx_overrun : UartRxSync_t :=
  { ctx_example with
      sync_state := UART_RX_SYNC_DMA_ACTIVE
      hdr_idx := 1
      huart := { hdmarx := some { Init_Mode := DMA_Mode.DMA_CIRCULAR }, ErrorCode := 8 } }

/-- The conditions `UartRxSync_Init` asserts on its configuration, all of them. -/
def init_asserts (config : UartRxSync_Config_t) : Prop :=
  (∃ huart, config.huart = some huart ∧
    ∃ hdmarx, huart.hdmarx = some hdmarx ∧ hdmarx.Init_Mode = DMA_Mode.DMA_CIRCULAR) ∧
  0 < config.header.len ∧ config.header.len < config.frame_len ∧
  config.header.len ≤ UART_RX_SYNC_MAX_HDR ∧
  config.buffer ≠ none ∧ config.user ≠ 0 ∧ config.decode_data_callback.isSome = true

/-- The constraints on a configuration as the specification documents them:
transport handle, buffer and decode callback not null, `1 ≤ header.len ≤
UART_RX_SYNC_MAX_HDR`, `frame_len > header.len`. -/
def documented_constraints (config : UartRxSync_Config_t) : Prop :=
  config.huart ≠ none ∧ config.buffer ≠ none ∧ config.decode_data_callback.isSome = true ∧
  0 < config.header.len ∧ config.header.len ≤ UART_RX_SYNC_MAX_HDR ∧
  config.header.len < config.frame_len

/-- A configuration for the examples: header `AA 55`, frames of six bytes, a
buffer of six bytes, circular receive DMA. -/
def config_example : UartRxSync_Config_t where
  huart := some { hdmarx := some { Init_Mode := DMA_Mode.DMA_CIRCULAR }, ErrorCode := 0 }
  buffer := some [0, 0, 0, 0, 0, 0]
  header := { len := 2, content := [0xAA, 0x55] }
  frame_len := 6
  user := 1
  decode_data_callback := some fun _ _ => true

/-- The example configuration with a null user context. -/
def config_null_user : UartRxSync_Config_t :=
  { config_example with user := 0 }

/-- The example configuration over a receive DMA that is not circular. -/
def config_normal_dma : UartRxSync_Config_t :=
  { config_example with
      huart := some { hdmarx := some { Init_Mode := DMA_Mode.DMA_NORMAL }, ErrorCode := 0 } }

/-- The memory a context is initialised in: the header array holds other
bytes and the state is not the initial one. -/
def ctx_raw : UartRxSync_t :=
  { ctx_example with
      sync_state := UART_RX_SYNC_DMA_ACTIVE, hdr := [9, 9, 9, 9], hdr_len := 3, hdr_idx := 2 }

/-! ## The transport

The HAL is outside the driver.  What a byte stream needs of it is how a
requested reception completes: bytes are stored one after the other from the
requested offset, and the completion callback runs when the requested number
has arrived. -/

/-- A reception the transport has been asked for: where in the buffer it
stores, how many bytes, and whether the transfer starts over by itself when it
completes (the circular receive DMA that `UartRxSync_Init` asserts). -/
structure Reception where
  offset : Nat
  size : Nat
  circular : Bool
  deriving DecidableEq, Repr

/-- Modelled from the spec: the reception outstanding after a run of events.
"Abort current reception" leaves none, a reception request replaces what was
outstanding, a decoder call changes nothing. -/
def next_request : Option Reception → List Event → Option Reception
  | pending, [] => pending
  | _, Event.AbortReceive :: rest => next_request none rest
  | _, Event.Receive_IT offset size :: rest =>
    next_request (some { offset := offset, size := size, circular := false }) rest
  | _, Event.Receive_DMA offset size :: rest =>
    next_request (some { offset := offset, size := size, circular := true }) rest
  | pending, _ :: rest => next_request pending rest

/-- Modelled from the spec: the driver together with its transport, that is
the context, the outstanding reception and the number of its bytes already
stored. -/
structure Link where
  sync : UartRxSync_t
  pending : Option Reception
  received : Nat

/-- Modelled from the spec: one byte arrives on the line.  The transport stores
it at the next free place of the outstanding reception (outside the buffer
that is a fault) and, when the reception is complete, notifies the driver
through `UartRxSync_RxCallback`; the requests of the callback decide what is
outstanding next.  With no reception outstanding the byte is lost. -/
def Link.byte (DEBUG : Bool) (link : Link) (b : Byte) : Except Fault (Link × List Event) :=
  match link.pending with
  | none => .ok (link, [])
  | some r =>
    if r.offset + link.received < link.sync.buffer.length then
      let sync := { link.sync with buffer := link.sync.buffer.set (r.offset + link.received) b }
      if link.received + 1 = r.size then
        match UartRxSync_RxCallback DEBUG sync with
        | .error e => .error e
        | .ok (sync', trace) =>
          .ok ({ sync := sync'
                 pending := next_request (if r.circular then some r else none) trace
                 received := 0 }, trace)
      else .ok ({ link with sync := sync, received := link.received + 1 }, [])
    else .error .undefined_behaviour

/-- The bytes of a stream arrive one after the other; the events of all the
callbacks they cause, in order. -/
def feed (DEBUG : Bool) : Link → List Byte → Except Fault (Link × List Event)
  | link, [] => .ok (link, [])
  | link, b :: rest =>
    match Link.byte DEBUG link b with
    | .error e => .error e
    | .ok (link1, trace1) =>
      match feed DEBUG link1 rest with
      | .error e => .error e
      | .ok (link2, trace2) => .ok (link2, trace1 ++ trace2)

/-- The link as `UartRxSync_Init` leaves it: the returned context and the
reception its trace asked for. -/
def Link.after_init (sync : UartRxSync_t) (trace : List Event) : Link :=
  { sync := sync, pending := next_request none trace, received := 0 }

/-- The `len` bytes of `v` from position `m` on are the header. -/
def header_at (hdr : List Byte) (len : Nat) (v : List Byte) (m : Nat) : Prop :=
  ∀ i, i < len → v[m + i]? = hdr[i]?

instance (hdr : List Byte) (len : Nat) (v : List Byte) (m : Nat) :
    Decidable (header_at hdr len v m) := by
  unfold header_at; infer_instance

/-- The ring `buffer[0..len)`, read from `n mod len` on, holds the `len` bytes
of `v` from position `n` on. -/
def ring_holds (len : Nat) (v : List Byte) (n : Nat) (buffer : List Byte) : Prop :=
  ∀ i, i < len → buffer[(n + i) % len]? = v[n + i]?

/-- The buffer `filled` is `buffer` with the bytes `p` stored from `offset` on. -/
def stored (buffer filled : List Byte) (offset : Nat) (p : List Byte) : Prop :=
  filled.length = buffer.length ∧
  ∀ i, filled[i]? = if offset ≤ i ∧ i < offset + p.length then p[i - offset]? else buffer[i]?

/-- The example configuration over a buffer that already holds `AA` at index 1. -/
def config_stale : UartRxSync_Config_t :=
  { config_example with buffer := some [0, 0xAA, 0, 0, 0, 0] }

/-- A context with everything a decoder's verdict may touch blanked: the
decoder itself and the two decode counters. -/
def forget_decode (sync : UartRxSync_t) : UartRxSync_t :=
  { sync with decode := fun _ _ => true, decode_success_cnt := 0, decode_fail_cnt := 0 }

/-- The contexts the driver can be in: what `UartRxSync_Init` returns, and from
there what the two handlers return, the transport being free to change the
bytes of the buffer and its own handle in between. -/
inductive Reachable (DEBUG : Bool) : UartRxSync_t → Prop where
  | init {sync0 : UartRxSync_t} {config : UartRxSync_Config_t} {sync : UartRxSync_t}
      {trace : List Event} (hinit : UartRxSync_Init sync0 config = .ok (sync, trace)) :
      Reachable DEBUG sync
  | transport {sync : UartRxSync_t} (buffer : List Byte) (huart : UART_HandleTypeDef)
      (h : Reachable DEBUG sync) :
      Reachable DEBUG { sync with buffer := buffer, huart := huart }
  | callback {sync sync' : UartRxSync_t} {trace : List Event} (h : Reachable DEBUG sync)
      (hok : UartRxSync_RxCallback DEBUG sync = .ok (sync', trace)) :
      Reachable DEBUG sync'
  | error_handler {sync : UartRxSync_t} (h : Reachable DEBUG sync) :
      Reachable DEBUG (UartRxSync_RxErrorHandler DEBUG sync).1

/-- Every `AbortReceive` of the trace has a reception request as the very next
event. -/
def aborts_rearmed : List Event → Bool
  | [] => true
  | Event.AbortReceive :: Event.Receive_IT _ _ :: rest => aborts_rearmed rest
  | Event.AbortReceive :: Event.Receive_DMA _ _ :: rest => aborts_rearmed rest
  | Event.AbortReceive :: _ => false
  | _ :: rest => aborts_rearmed rest

/-- The example context as a reset leaves it: searching from index 0, the
buffer cleared. -/
def ctx_reset : UartRxSync_t :=
  { ctx_example with hdr_idx := 0, buffer := [0, 0, 0, 0, 0, 0] }

/-- The naive variant of `UartRxSync_RxCallback`, to compare the source with:
in `UART_RX_SYNC_WAIT_HEAD` it always calls
`check_header(hdr, buffer, idx_next, hdr_len)`, without first testing
`buffer[hdr_idx] == hdr[hdr_len - 1]`; the other states are those of the
source. -/
def UartRxSync_RxCallback_naive (DEBUG : Bool) (sync : UartRxSync_t) :
    Except Fault (UartRxSync_t × List Event) :=
  match sync.sync_state with
  | UART_RX_SYNC_WAIT_HEAD =>
    let idx_next := size_add sync.hdr_idx 1
    let idx_next := if idx_next = sync.hdr_len then 0 else idx_next
    match check_header sync.hdr sync.buffer idx_next sync.hdr_len with
    | .error e => .error e
    | .ok true =>
      let sync := HDR_MATCH DEBUG sync
      .ok ({ sync with sync_state := UART_RX_SYNC_RECEIVING },
           [Event.Receive_DMA sync.hdr_len (size_sub sync.frame_len sync.hdr_len)])
    | .ok false =>
      .ok ({ sync with hdr_idx := idx_next }, [Event.Receive_IT idx_next 1])
  | _ => UartRxSync_RxCallback DEBUG sync

/-- The example context with a newest byte that is not the last header byte. -/
def ctx_noise : UartRxSync_t :=
  { ctx_example with buffer := [0xAA, 0x00, 1, 2, 3, 4] }

/-- A reception request stays inside a frame of `frame_len` bytes: at least one
byte, and none past the end.  An event that is no reception request asks for
no byte. -/
def request_in_frame (frame_len : Nat) : Event → Prop
  | Event.Receive_IT offset size => 1 ≤ size ∧ offset + size ≤ frame_len
  | Event.Receive_DMA offset size => 1 ≤ size ∧ offset + size ≤ frame_len
  | _ => True

/-- The example context with `hdr` and `buffer` cut down to the `hdr_len` bytes
of the header. -/
def ctx_cut : UartRxSync_t :=
  { ctx_example with hdr := [0xAA, 0x55], buffer := [0xAA, 0x55] }

/-- Frames received less frames accounted for (header errors, decode successes
and decode failures), on `uint32_t`. -/
def counter_balance (sync : UartRxSync_t) : Int :=
  ((sync.data_received_cnt : Int) -
    ((sync.hdr_error_cnt : Int) + (sync.decode_success_cnt : Int) +
      (sync.decode_fail_cnt : Int))) % 4294967296

/-! ## The header matcher -/

/-- The iteration bound of `check_loop` is never what stops it: from a bound
that exceeds the bytes left in the buffer, any larger bound gives the same
result. -/
theorem check_loop_fuel (hdr buffer : List Byte) :
    ∀ fuel ptr end_ hp extra, 0 < fuel → buffer.length < fuel + ptr →
      check_loop hdr buffer (fuel + extra) ptr end_ hp =
        check_loop hdr buffer fuel ptr end_ hp := by
  intro fuel
  induction fuel with
  | zero => intro ptr end_ hp extra h; omega
  | succ n ih =>
    intro ptr end_ hp extra _ hlen
    have he : n + 1 + extra = (n + extra) + 1 := by omega
    rw [he]
    unfold check_loop
    by_cases hpe : ptr = end_
    · rw [if_pos hpe, if_pos hpe]
    · rw [if_neg hpe, if_neg hpe]
      by_cases hb : ptr < buffer.length
      · rw [List.getElem?_eq_getElem hb]
        cases hh : hdr[hp]? with
        | none => rfl
        | some h =>
          simp only []
          by_cases hne : buffer[ptr] ≠ h
          · rw [if_pos hne, if_pos hne]
          · rw [if_neg hne, if_neg hne]
            exact ih (ptr + 1) end_ (hp + 1) extra (by omega) (by omega)
      · rw [List.getElem?_eq_none (by omega)]

theorem check_loop_eq (hdr buffer : List Byte) :
    ∀ fuel ptr end_ hp, ptr ≤ end_ → end_ ≤ buffer.length →
      hp + (end_ - ptr) ≤ hdr.length → end_ - ptr < fuel →
      check_loop hdr buffer fuel ptr end_ hp =
        .ok (if ∀ k, k < end_ - ptr → buffer[ptr + k]? = hdr[hp + k]?
             then some (hp + (end_ - ptr)) else none) := by
  intro fuel
  induction fuel with
  | zero => intro ptr end_ hp _ _ _ h; omega
  | succ n ih =>
    intro ptr end_ hp h1 h2 h3 h4
    unfold check_loop
    by_cases hpe : ptr = end_
    · subst hpe; simp
    · have hlt : ptr < end_ := by omega
      have hb : ptr < buffer.length := by omega
      have hh : hp < hdr.length := by omega
      rw [if_neg hpe, List.getElem?_eq_getElem hb, List.getElem?_eq_getElem hh]
      simp only []
      by_cases hne : buffer[ptr] ≠ hdr[hp]
      · rw [if_pos hne, if_neg]
        intro hall
        have h0 := hall 0 (by omega)
        simp only [Nat.add_zero, List.getElem?_eq_getElem hb, List.getElem?_eq_getElem hh,
          Option.some.injEq] at h0
        exact hne h0
      · rw [if_neg hne, ih (ptr + 1) end_ (hp + 1) (by omega) h2 (by omega) (by omega)]
        have heq : buffer[ptr] = hdr[hp] := by
          by_contra hc; exact hne hc
        have hiff : (∀ k, k < end_ - (ptr + 1) → buffer[ptr + 1 + k]? = hdr[hp + 1 + k]?) ↔
            (∀ k, k < end_ - ptr → buffer[ptr + k]? = hdr[hp + k]?) := by
          constructor
          · intro hall k hk
            rcases Nat.eq_zero_or_pos k with hk0 | hk0
            · subst hk0
              simp only [Nat.add_zero, List.getElem?_eq_getElem hb,
                List.getElem?_eq_getElem hh, heq]
            · have := hall (k - 1) (by omega)
              have e1 : ptr + 1 + (k - 1) = ptr + k := by omega
              have e2 : hp + 1 + (k - 1) = hp + k := by omega
              rw [e1, e2] at this
              exact this
          · intro hall k hk
            have := hall (k + 1) (by omega)
            have e1 : ptr + (k + 1) = ptr + 1 + k := by omega
            have e2 : hp + (k + 1) = hp + 1 + k := by omega
            rw [e1, e2] at this
            exact this
        have e3 : hp + 1 + (end_ - (ptr + 1)) = hp + (end_ - ptr) := by omega
        simp only [hiff, e3]

theorem check_header_eq (hdr buffer : List Byte) (idx len : Nat)
    (hidx : idx ≤ len) (hb : len ≤ buffer.length) (hh : len ≤ hdr.length) :
    check_header hdr buffer idx len = .ok (decide (window_matches hdr buffer idx len)) := by
  unfold check_header
  rw [check_loop_eq hdr buffer _ idx len 0 hidx hb (by omega) (by omega)]
  by_cases h1 : ∀ k, k < len - idx → buffer[idx + k]? = hdr[0 + k]?
  · rw [if_pos h1]
    simp only []
    rw [check_loop_eq hdr buffer _ 0 idx (0 + (len - idx)) (by omega) (by omega) (by omega)
      (by omega)]
    by_cases h2 : ∀ k, k < idx - 0 → buffer[0 + k]? = hdr[0 + (len - idx) + k]?
    · rw [if_pos h2]
      simp only []
      have : window_matches hdr buffer idx len := by
        intro i hi
        by_cases hlt : idx + i < len
        · rw [Nat.mod_eq_of_lt hlt]
          have := h1 i (by omega)
          rwa [Nat.zero_add] at this
        · have hm : (idx + i) % len = idx + i - len := by
            rw [Nat.mod_eq_sub_mod (by omega), Nat.mod_eq_of_lt (by omega)]
          rw [hm]
          have := h2 (idx + i - len) (by omega)
          have e1 : 0 + (idx + i - len) = idx + i - len := by omega
          have e2 : 0 + (len - idx) + (idx + i - len) = i := by omega
          rwa [e1, e2] at this
      simp [this]
    · rw [if_neg h2]
      simp only []
      have : ¬ window_matches hdr buffer idx len := by
        intro hw
        apply h2
        intro k hk
        have := hw (len - idx + k) (by omega)
        have hm : (idx + (len - idx + k)) % len = k := by
          have : idx + (len - idx + k) = k + len := by omega
          rw [this, Nat.add_mod_right, Nat.mod_eq_of_lt (by omega)]
        rw [hm] at this
        have e1 : 0 + k = k := by omega
        have e2 : 0 + (len - idx) + k = len - idx + k := by omega
        rw [e1, e2]
        exact this
      simp [this]
  · rw [if_neg h1]
    simp only []
    have : ¬ window_matches hdr buffer idx len := by
      intro hw
      apply h1
      intro k hk
      have := hw k (by omega)
      rw [Nat.mod_eq_of_lt (by omega)] at this
      rwa [Nat.zero_add]
    simp [this]

theorem rotate_window (h : List Byte) (idx : Nat) (hidx : idx < h.length) :
    ∀ i, i < h.length →
      (h.rotate (h.length - idx))[(idx + i) % h.length]? = h[i]? := by
  intro i hi
  have hpos : 0 < h.length := by omega
  rw [List.getElem?_rotate (Nat.mod_lt _ hpos)]
  congr 1
  by_cases hlt : idx + i < h.length
  · rw [Nat.mod_eq_of_lt hlt]
    have : idx + i + (h.length - idx) = i + h.length := by omega
    rw [this, Nat.add_mod_right, Nat.mod_eq_of_lt hi]
  · have hm : (idx + i) % h.length = idx + i - h.length := by
      rw [Nat.mod_eq_sub_mod (by omega), Nat.mod_eq_of_lt (by omega)]
    rw [hm]
    have : idx + i - h.length + (h.length - idx) = i := by omega
    rw [this, Nat.mod_eq_of_lt hi]

/-- C1. For a header `h` of length `L ≥ 1`, a buffer `b` of at least `L` bytes
and a rotation index `idx < L`, `check_header h b idx L` returns, and returns
true exactly when `b[(idx + i) mod L] = h[i]` for every `i < L`.  It is true
for every buffer whose first `L` bytes are the rotation of `h` that puts
`h[0]` at `idx`, and false for every buffer that differs from that rotation
in exactly one of its first `L` bytes. -/
theorem check_header_cyclic_match (L : Nat) (h b : List Byte) (idx : Nat)
    (hL : 1 ≤ L) (hh : h.length = L) (hb : L ≤ b.length) (hidx : idx < L) :
    (check_header h b idx L = .ok true ∨ check_header h b idx L = .ok false) ∧
    (check_header h b idx L = .ok true ↔
      ∀ i, i < L → b[(idx + i) % L]? = h[i]?) ∧
    (∀ r : List Byte, r.take L = h.rotate (L - idx) →
      check_header h r idx L = .ok true) ∧
    (∀ r : List Byte, L ≤ r.length →
      (∃ j, j < L ∧ r[j]? ≠ (h.rotate (L - idx))[j]? ∧
        ∀ k, k < L → k ≠ j → r[k]? = (h.rotate (L - idx))[k]?) →
      check_header h r idx L = .ok false) := by
  have hmod : ∀ i, (idx + i) % L < L := fun i => Nat.mod_lt _ (by omega)
  refine ⟨?_, ?_, ?_, ?_⟩
  · rw [check_header_eq h b idx L (by omega) hb (by omega)]
    by_cases hw : window_matches h b idx L <;> simp [hw]
  · rw [check_header_eq h b idx L (by omega) hb (by omega)]
    simp [window_matches]
  · intro r hr
    have hrl : L ≤ r.length := by
      have := congrArg List.length hr
      rw [List.length_take, List.length_rotate] at this
      omega
    rw [check_header_eq h r idx L (by omega) hrl (by omega)]
    have : window_matches h r idx L := by
      intro i hi
      rw [← List.getElem?_take_of_lt (hmod i), hr]
      subst hh
      exact rotate_window h idx hidx i hi
    simp [this]
  · intro r hrl hex
    obtain ⟨j, hj, hne, _⟩ := hex
    rw [check_header_eq h r idx L (by omega) hrl (by omega)]
    have : ¬ window_matches h r idx L := by
      intro hw
      apply hne
      -- the window position that reads `r[j]`
      have hi : (j + L - idx) % L < L := Nat.mod_lt _ (by omega)
      have hpos : (idx + (j + L - idx) % L) % L = j := by
        rw [Nat.add_mod, Nat.mod_mod, ← Nat.add_mod]
        have : idx + (j + L - idx) = j + L := by omega
        rw [this, Nat.add_mod_right, Nat.mod_eq_of_lt hj]
      have h1 := hw _ hi
      rw [hpos] at h1
      subst hh
      have h2 := rotate_window h idx hidx _ hi
      rw [hpos] at h2
      rw [h1, h2]
    simp [this]

/-- Witness for C1: header `[1, 2, 3]` found at rotation index 1 of `[3, 1, 2, 9]`. -/
theorem check_header_cyclic_match_witness :
    (1 ≤ 3 ∧ ([1, 2, 3] : List Byte).length = 3 ∧ 3 ≤ ([3, 1, 2, 9] : List Byte).length ∧
      1 < 3) ∧
    check_header [1, 2, 3] [3, 1, 2, 9] 1 3 = .ok true :=
  ⟨by decide,
   (check_header_cyclic_match 3 [1, 2, 3] [3, 1, 2, 9] 1 (by decide) (by decide) (by decide)
      (by decide)).2.1.mpr (by decide)⟩

/-! ## The state machine -/

theorem size_sub_eq (a b : Nat) (hba : b ≤ a) (ha : a < SIZE_MOD) : size_sub a b = a - b := by
  unfold size_sub
  have hb : b % SIZE_MOD = b := Nat.mod_eq_of_lt (by omega)
  rw [hb]
  have : a + SIZE_MOD - b = (a - b) + SIZE_MOD := by omega
  rw [this, Nat.add_mod_right, Nat.mod_eq_of_lt (by omega)]

theorem window_last (hdr buffer : List Byte) (idx len : Nat) (hidx : idx < len)
    (hw : window_matches hdr buffer ((idx + 1) % len) len) :
    buffer[idx]? = hdr[len - 1]? := by
  have := hw (len - 1) (by omega)
  have hm : ((idx + 1) % len + (len - 1)) % len = idx := by
    rw [Nat.add_mod, Nat.mod_mod, ← Nat.add_mod]
    have : idx + 1 + (len - 1) = idx + len := by omega
    rw [this, Nat.add_mod_right, Nat.mod_eq_of_lt hidx]
  rwa [hm] at this

/-- What the callback does in `UART_RX_SYNC_WAIT_HEAD`, in closed form. -/
theorem RxCallback_wait_head (DEBUG : Bool) (sync : UartRxSync_t)
    (hstate : sync.sync_state = UART_RX_SYNC_WAIT_HEAD)
    (hlen : 1 ≤ sync.hdr_len) (hidx : sync.hdr_idx < sync.hdr_len) (hmem : memory_ok sync) :
    UartRxSync_RxCallback DEBUG sync =
      .ok (if window_matches sync.hdr sync.buffer ((sync.hdr_idx + 1) % sync.hdr_len)
              sync.hdr_len
           then ({ HDR_MATCH DEBUG sync with sync_state := UART_RX_SYNC_RECEIVING },
                 [Event.Receive_DMA sync.hdr_len (size_sub sync.frame_len sync.hdr_len)])
           else ({ sync with hdr_idx := (sync.hdr_idx + 1) % sync.hdr_len },
                 [Event.Receive_IT ((sync.hdr_idx + 1) % sync.hdr_len) 1])) := by
  obtain ⟨hm1, hm2, hm3⟩ := hmem
  have hmax : UART_RX_SYNC_MAX_HDR = 4 := rfl
  have hsz : SIZE_MOD = 4294967296 := by unfold SIZE_MOD; norm_num
  have hadd : size_add sync.hdr_idx 1 = sync.hdr_idx + 1 := by
    unfold size_add; exact Nat.mod_eq_of_lt (by omega)
  have hsub : size_sub sync.hdr_len 1 = sync.hdr_len - 1 :=
    size_sub_eq _ _ hlen (by omega)
  have hnext : (if sync.hdr_idx + 1 = sync.hdr_len then 0 else sync.hdr_idx + 1) =
      (sync.hdr_idx + 1) % sync.hdr_len := by
    by_cases he : sync.hdr_idx + 1 = sync.hdr_len
    · rw [if_pos he, he, Nat.mod_self]
    · rw [if_neg he, Nat.mod_eq_of_lt (by omega)]
  have hnlt : (sync.hdr_idx + 1) % sync.hdr_len < sync.hdr_len := Nat.mod_lt _ (by omega)
  have hb : sync.hdr_idx < sync.buffer.length := by omega
  have hh : sync.hdr_len - 1 < sync.hdr.length := by omega
  unfold UartRxSync_RxCallback
  simp only [hstate, hadd, hsub, hnext, List.getElem?_eq_getElem hb,
    List.getElem?_eq_getElem hh]
  rw [check_header_eq sync.hdr sync.buffer _ sync.hdr_len (by omega) hm3 (by omega)]
  by_cases hw : window_matches sync.hdr sync.buffer ((sync.hdr_idx + 1) % sync.hdr_len)
      sync.hdr_len
  · have hl := window_last sync.hdr sync.buffer sync.hdr_idx sync.hdr_len hidx hw
    rw [List.getElem?_eq_getElem hb, List.getElem?_eq_getElem hh, Option.some.injEq] at hl
    simp [hw, hl, HDR_MATCH]
    cases DEBUG <;> simp
  · by_cases hl : sync.buffer[sync.hdr_idx] = sync.hdr[sync.hdr_len - 1] <;> simp [hw, hl]

theorem window_zero (hdr buffer : List Byte) (len : Nat) :
    window_matches hdr buffer 0 len ↔ ∀ i, i < len → buffer[i]? = hdr[i]? := by
  unfold window_matches
  constructor
  · intro h i hi
    have := h i hi
    rwa [Nat.zero_add, Nat.mod_eq_of_lt hi] at this
  · intro h i hi
    rw [Nat.zero_add, Nat.mod_eq_of_lt hi]
    exact h i hi

/-- What the callback does in `UART_RX_SYNC_DMA_ACTIVE`, in closed form. -/
theorem RxCallback_dma_active (DEBUG : Bool) (sync : UartRxSync_t)
    (hstate : sync.sync_state = UART_RX_SYNC_DMA_ACTIVE) (hmem : memory_ok sync) :
    UartRxSync_RxCallback DEBUG sync =
      .ok (if ∀ i, i < sync.hdr_len → sync.buffer[i]? = sync.hdr[i]?
           then decode DEBUG (RECEIVED DEBUG sync)
           else ({ HDR_ERROR DEBUG (RECEIVED DEBUG sync) with
                    sync_state := UART_RX_SYNC_WAIT_HEAD, hdr_idx := 0 },
                 [Event.AbortReceive, Event.Receive_IT 0 1])) := by
  obtain ⟨hm1, hm2, hm3⟩ := hmem
  have hr1 : (RECEIVED DEBUG sync).hdr = sync.hdr := by cases DEBUG <;> rfl
  have hr2 : (RECEIVED DEBUG sync).buffer = sync.buffer := by cases DEBUG <;> rfl
  have hr3 : (RECEIVED DEBUG sync).hdr_len = sync.hdr_len := by cases DEBUG <;> rfl
  unfold UartRxSync_RxCallback
  simp only [hstate, hr1, hr2, hr3]
  rw [check_header_eq sync.hdr sync.buffer 0 sync.hdr_len (by omega) hm3 (by omega)]
  by_cases hw : ∀ i, i < sync.hdr_len → sync.buffer[i]? = sync.hdr[i]?
  · have hw2 := (window_zero sync.hdr sync.buffer sync.hdr_len).mpr hw
    simp only [hw2, decide_True]
    rw [if_pos hw]
  · have hw2 : ¬ window_matches sync.hdr sync.buffer 0 sync.hdr_len :=
      fun h => hw ((window_zero sync.hdr sync.buffer sync.hdr_len).mp h)
    simp only [hw2, decide_False]
    rw [if_neg hw]

/-- What the callback does in `UART_RX_SYNC_RECEIVING`, in closed form. -/
theorem RxCallback_receiving (DEBUG : Bool) (sync : UartRxSync_t)
    (hstate : sync.sync_state = UART_RX_SYNC_RECEIVING) :
    UartRxSync_RxCallback DEBUG sync =
      .ok ((decode DEBUG
              { RECEIVED DEBUG sync with sync_state := UART_RX_SYNC_DMA_ACTIVE }).1,
           [Event.AbortReceive, Event.Receive_DMA 0 sync.frame_len,
            Event.decode_call sync.hdr_len (sync.buffer.drop sync.hdr_len)]) := by
  unfold UartRxSync_RxCallback
  simp only [hstate]
  cases DEBUG <;> cases hd : sync.decode sync.user (sync.buffer.drop sync.hdr_len) <;>
    simp [decode, RECEIVED, hd]

theorem decode_fields (DEBUG : Bool) (sync : UartRxSync_t) :
    (decode DEBUG sync).1.sync_state = sync.sync_state ∧
    (decode DEBUG sync).1.hdr_idx = sync.hdr_idx ∧
    (decode DEBUG sync).2 =
      [Event.decode_call sync.hdr_len (sync.buffer.drop sync.hdr_len)] := by
  cases DEBUG <;> cases hd : sync.decode sync.user (sync.buffer.drop sync.hdr_len) <;>
    simp [decode, DECODE_FAILED, DECODE_SUCCESS, hd]

/-- C2. In `UART_RX_SYNC_WAIT_HEAD` with `1 ≤ hdr_len`, `hdr_idx < hdr_len` and
the arrived byte at `buffer[hdr_idx]`, let `next = (hdr_idx + 1) mod hdr_len`.
If the cyclic window of `buffer[0..hdr_len)` that starts at `next` equals the
header, the callback issues exactly one request, a bulk reception of
`frame_len - hdr_len` bytes (computed on `size_t`) at offset `hdr_len`, and the
state becomes `UART_RX_SYNC_RECEIVING`; otherwise it issues exactly one
request, a single-byte reception at offset `next`, sets `hdr_idx = next` and
stays in `UART_RX_SYNC_WAIT_HEAD`.  The decoder is invoked in neither case. -/
theorem RxCallback_searching_step (DEBUG : Bool) (sync : UartRxSync_t)
    (hstate : sync.sync_state = UART_RX_SYNC_WAIT_HEAD)
    (hlen : 1 ≤ sync.hdr_len) (hidx : sync.hdr_idx < sync.hdr_len) (hmem : memory_ok sync) :
    ((∀ i, i < sync.hdr_len →
        sync.buffer[((sync.hdr_idx + 1) % sync.hdr_len + i) % sync.hdr_len]? = sync.hdr[i]?) →
      ∃ sync' trace, UartRxSync_RxCallback DEBUG sync = .ok (sync', trace) ∧
        trace = [Event.Receive_DMA sync.hdr_len (size_sub sync.frame_len sync.hdr_len)] ∧
        sync'.sync_state = UART_RX_SYNC_RECEIVING ∧ decode_calls trace = []) ∧
    (¬ (∀ i, i < sync.hdr_len →
        sync.buffer[((sync.hdr_idx + 1) % sync.hdr_len + i) % sync.hdr_len]? = sync.hdr[i]?) →
      ∃ sync' trace, UartRxSync_RxCallback DEBUG sync = .ok (sync', trace) ∧
        trace = [Event.Receive_IT ((sync.hdr_idx + 1) % sync.hdr_len) 1] ∧
        sync'.hdr_idx = (sync.hdr_idx + 1) % sync.hdr_len ∧
        sync'.sync_state = UART_RX_SYNC_WAIT_HEAD ∧ decode_calls trace = []) ∧
    (sync.hdr_len ≤ sync.frame_len → sync.frame_len < SIZE_MOD →
      size_sub sync.frame_len sync.hdr_len = sync.frame_len - sync.hdr_len) := by
  have hcl := RxCallback_wait_head DEBUG sync hstate hlen hidx hmem
  refine ⟨?_, ?_, fun h1 h2 => size_sub_eq _ _ h1 h2⟩
  · intro hw
    have hw2 : window_matches sync.hdr sync.buffer ((sync.hdr_idx + 1) % sync.hdr_len)
        sync.hdr_len := hw
    rw [if_pos hw2] at hcl
    refine ⟨_, _, hcl, rfl, rfl, rfl⟩
  · intro hw
    have hw2 : ¬ window_matches sync.hdr sync.buffer ((sync.hdr_idx + 1) % sync.hdr_len)
        sync.hdr_len := hw
    rw [if_neg hw2] at hcl
    refine ⟨_, _, hcl, rfl, rfl, hstate, rfl⟩

/-- Witness for C2: the byte `55` at index 1 completes the header `AA 55`. -/
theorem RxCallback_searching_step_witness :
    (ctx_example.sync_state = UART_RX_SYNC_WAIT_HEAD ∧ 1 ≤ ctx_example.hdr_len ∧
      ctx_example.hdr_idx < ctx_example.hdr_len ∧ memory_ok ctx_example) ∧
    ∃ sync' trace, UartRxSync_RxCallback true ctx_example = .ok (sync', trace) ∧
      trace = [Event.Receive_DMA 2 4] ∧
      sync'.sync_state = UART_RX_SYNC_RECEIVING ∧ decode_calls trace = [] :=
  ⟨by decide,
   (RxCallback_searching_step true ctx_example (by decide) (by decide) (by decide)
      (by decide)).1 (by decide)⟩

/-- C3. In `UART_RX_SYNC_RECEIVING` the callback requests a bulk reception of
the full `frame_len` bytes at buffer offset 0 before it invokes the decoder,
invokes the decoder exactly once, on the view that starts at buffer offset
`hdr_len`, and ends in `UART_RX_SYNC_DMA_ACTIVE` whatever the decoder returns
(the decoder is any function; `frame_len > hdr_len` is not needed). -/
theorem RxCallback_frame_pending (DEBUG : Bool) (sync : UartRxSync_t)
    (hstate : sync.sync_state = UART_RX_SYNC_RECEIVING) :
    ∃ sync' trace, UartRxSync_RxCallback DEBUG sync = .ok (sync', trace) ∧
      trace = [Event.AbortReceive, Event.Receive_DMA 0 sync.frame_len,
               Event.decode_call sync.hdr_len (sync.buffer.drop sync.hdr_len)] ∧
      decode_calls trace =
        [Event.decode_call sync.hdr_len (sync.buffer.drop sync.hdr_len)] ∧
      sync'.sync_state = UART_RX_SYNC_DMA_ACTIVE := by
  refine ⟨_, _, RxCallback_receiving DEBUG sync hstate, rfl, rfl, ?_⟩
  rw [(decode_fields DEBUG _).1]

/-- Witness for C3: the first frame of the example completes. -/
theorem RxCallback_frame_pending_witness :
    ctx_receiving.sync_state = UART_RX_SYNC_RECEIVING ∧
    ∃ sync' trace, UartRxSync_RxCallback true ctx_receiving = .ok (sync', trace) ∧
      trace = [Event.AbortReceive, Event.Receive_DMA 0 6, Event.decode_call 2 [1, 2, 3, 4]] ∧
      decode_calls trace = [Event.decode_call 2 [1, 2, 3, 4]] ∧
      sync'.sync_state = UART_RX_SYNC_DMA_ACTIVE :=
  ⟨rfl, RxCallback_frame_pending true ctx_receiving rfl⟩

/-- C4. In `UART_RX_SYNC_DMA_ACTIVE` with `buffer[0..hdr_len)` different from
the header in at least one byte, the callback does not invoke the decoder,
aborts the reception in flight, issues exactly one single-byte reception
request at buffer offset 0, sets `hdr_idx = 0` and ends in
`UART_RX_SYNC_WAIT_HEAD`. -/
theorem RxCallback_steady_desync (DEBUG : Bool) (sync : UartRxSync_t)
    (hstate : sync.sync_state = UART_RX_SYNC_DMA_ACTIVE) (hmem : memory_ok sync)
    (hdiff : ∃ i, i < sync.hdr_len ∧ sync.buffer[i]? ≠ sync.hdr[i]?) :
    ∃ sync' trace, UartRxSync_RxCallback DEBUG sync = .ok (sync', trace) ∧
      trace = [Event.AbortReceive, Event.Receive_IT 0 1] ∧
      decode_calls trace = [] ∧
      sync'.hdr_idx = 0 ∧ sync'.sync_state = UART_RX_SYNC_WAIT_HEAD := by
  have hcl := RxCallback_dma_active DEBUG sync hstate hmem
  have hw : ¬ ∀ i, i < sync.hdr_len → sync.buffer[i]? = sync.hdr[i]? := by
    intro h
    obtain ⟨i, hi, hne⟩ := hdiff
    exact hne (h i hi)
  rw [if_neg hw] at hcl
  exact ⟨_, _, hcl, rfl, rfl, rfl, rfl⟩

/-- Witness for C4: the second header byte of the example is corrupted. -/
theorem RxCallback_steady_desync_witness :
    (ctx_desync.sync_state = UART_RX_SYNC_DMA_ACTIVE ∧ memory_ok ctx_desync) ∧
    ∃ sync' trace, UartRxSync_RxCallback true ctx_desync = .ok (sync', trace) ∧
      trace = [Event.AbortReceive, Event.Receive_IT 0 1] ∧
      decode_calls trace = [] ∧
      sync'.hdr_idx = 0 ∧ sync'.sync_state = UART_RX_SYNC_WAIT_HEAD :=
  ⟨by decide,
   RxCallback_steady_desync true ctx_desync (by decide) (by decide) ⟨1, by decide, by decide⟩⟩

/-- C5. In `UART_RX_SYNC_DMA_ACTIVE` with `buffer[0..hdr_len)` equal to the
header byte for byte, the callback invokes the decoder exactly once, on the
view that starts at buffer offset `hdr_len`, issues no transport request (no
abort, no reception request), stays in `UART_RX_SYNC_DMA_ACTIVE` and leaves
`hdr_idx` unchanged. -/
theorem RxCallback_steady_match (DEBUG : Bool) (sync : UartRxSync_t)
    (hstate : sync.sync_state = UART_RX_SYNC_DMA_ACTIVE) (hmem : memory_ok sync)
    (hsame : ∀ i, i < sync.hdr_len → sync.buffer[i]? = sync.hdr[i]?) :
    ∃ sync' trace, UartRxSync_RxCallback DEBUG sync = .ok (sync', trace) ∧
      trace = [Event.decode_call sync.hdr_len (sync.buffer.drop sync.hdr_len)] ∧
      transport_requests trace = [] ∧
      sync'.sync_state = UART_RX_SYNC_DMA_ACTIVE ∧ sync'.hdr_idx = sync.hdr_idx := by
  have hcl := RxCallback_dma_active DEBUG sync hstate hmem
  rw [if_pos hsame] at hcl
  obtain ⟨h1, h2, h3⟩ := decode_fields DEBUG (RECEIVED DEBUG sync)
  have hr1 : (RECEIVED DEBUG sync).sync_state = sync.sync_state := by cases DEBUG <;> rfl
  have hr2 : (RECEIVED DEBUG sync).hdr_idx = sync.hdr_idx := by cases DEBUG <;> rfl
  have hr3 : (RECEIVED DEBUG sync).hdr_len = sync.hdr_len := by cases DEBUG <;> rfl
  have hr4 : (RECEIVED DEBUG sync).buffer = sync.buffer := by cases DEBUG <;> rfl
  rw [hr3, hr4] at h3
  refine ⟨(decode DEBUG (RECEIVED DEBUG sync)).1, (decode DEBUG (RECEIVED DEBUG sync)).2,
    hcl, h3, ?_, ?_, ?_⟩
  · rw [h3]; rfl
  · rw [h1, hr1, hstate]
  · rw [h2, hr2]

/-- Witness for C5: a steady-state frame of the example with its header in place. -/
theorem RxCallback_steady_match_witness :
    (ctx_dma_active.sync_state = UART_RX_SYNC_DMA_ACTIVE ∧ memory_ok ctx_dma_active) ∧
    ∃ sync' trace, UartRxSync_RxCallback true ctx_dma_active = .ok (sync', trace) ∧
      trace = [Event.decode_call 2 [1, 2, 3, 4]] ∧
      transport_requests trace = [] ∧
      sync'.sync_state = UART_RX_SYNC_DMA_ACTIVE ∧ sync'.hdr_idx = 1 :=
  ⟨by decide,
   RxCallback_steady_match true ctx_dma_active (by decide) (by decide) (by decide)⟩

/-! ## The error handler -/

/-- C6, amended. When the transport reports an error code the handler clears
the four error flags, aborts the reception, and yields `UART_RX_SYNC_WAIT_HEAD`
and `hdr_idx = 0` with exactly one single-byte reception request at buffer
offset 0 and no decoder call, from any state.  A second call on the result,
the error still reported, issues the same requests and yields the same context
but for `rx_error_event_cnt`, which the `DEBUG` build increments once more;
without `DEBUG` the context is the same. -/
theorem RxErrorHandler_reset (DEBUG : Bool) (sync : UartRxSync_t)
    (herr : sync.huart.ErrorCode ≠ HAL_UART_ERROR_NONE) :
    (UartRxSync_RxErrorHandler DEBUG sync).2 =
      [Event.CLEAR_PEFLAG, Event.CLEAR_FEFLAG, Event.CLEAR_NEFLAG, Event.CLEAR_OREFLAG,
       Event.AbortReceive, Event.Receive_IT 0 1] ∧
    decode_calls (UartRxSync_RxErrorHandler DEBUG sync).2 = [] ∧
    (UartRxSync_RxErrorHandler DEBUG sync).1.sync_state = UART_RX_SYNC_WAIT_HEAD ∧
    (UartRxSync_RxErrorHandler DEBUG sync).1.hdr_idx = 0 ∧
    (UartRxSync_RxErrorHandler DEBUG sync).1.huart.ErrorCode ≠ HAL_UART_ERROR_NONE ∧
    (UartRxSync_RxErrorHandler DEBUG (UartRxSync_RxErrorHandler DEBUG sync).1).2 =
      (UartRxSync_RxErrorHandler DEBUG sync).2 ∧
    (UartRxSync_RxErrorHandler DEBUG (UartRxSync_RxErrorHandler DEBUG sync).1).1 =
      RX_ERROR_EVENT DEBUG (UartRxSync_RxErrorHandler DEBUG sync).1 ∧
    (DEBUG = false →
      (UartRxSync_RxErrorHandler DEBUG (UartRxSync_RxErrorHandler DEBUG sync).1).1 =
        (UartRxSync_RxErrorHandler DEBUG sync).1) := by
  cases DEBUG <;> cases hs : sync.sync_state <;>
    simp [UartRxSync_RxErrorHandler, RX_ERROR_EVENT, herr, hs, decode_calls]

/-- Witness for C6: an overrun reported in steady state. -/
theorem RxErrorHandler_reset_witness :
    ctx_overrun.huart.ErrorCode ≠ HAL_UART_ERROR_NONE ∧
    (UartRxSync_RxErrorHandler true ctx_overrun).2 =
      [Event.CLEAR_PEFLAG, Event.CLEAR_FEFLAG, Event.CLEAR_NEFLAG, Event.CLEAR_OREFLAG,
       Event.AbortReceive, Event.Receive_IT 0 1] :=
  ⟨by decide, (RxErrorHandler_reset true ctx_overrun (by decide)).1⟩

/-- C6 as stated fails in the `DEBUG` build: the second call on the reset
context, the overrun still reported, does not yield the same context
(`rx_error_event_cnt` is 1 after the first call and 2 after the second). -/
theorem RxErrorHandler_second_call_counts :
    ctx_overrun.huart.ErrorCode ≠ HAL_UART_ERROR_NONE ∧
    (UartRxSync_RxErrorHandler true ctx_overrun).1.huart.ErrorCode ≠ HAL_UART_ERROR_NONE ∧
    (UartRxSync_RxErrorHandler true (UartRxSync_RxErrorHandler true ctx_overrun).1).1 ≠
      (UartRxSync_RxErrorHandler true ctx_overrun).1 := by
  refine ⟨by decide, by decide, ?_⟩
  intro h
  have hc := congrArg UartRxSync_t.rx_error_event_cnt h
  revert hc
  decide

/-- C7. When the transport reports no error code the handler returns at once:
the context is unchanged in every field and the trace is empty. -/
theorem RxErrorHandler_no_error (DEBUG : Bool) (sync : UartRxSync_t)
    (hnone : sync.huart.ErrorCode = HAL_UART_ERROR_NONE) :
    UartRxSync_RxErrorHandler DEBUG sync = (sync, []) := by
  unfold UartRxSync_RxErrorHandler
  rw [if_pos hnone]

/-- Witness for C7: a spurious error notification in the example context. -/
theorem RxErrorHandler_no_error_witness :
    ctx_example.huart.ErrorCode = HAL_UART_ERROR_NONE ∧
    UartRxSync_RxErrorHandler true ctx_example = (ctx_example, []) :=
  ⟨by decide, RxErrorHandler_no_error true ctx_example (by decide)⟩

/-! ## Initialization -/

/-- What `UartRxSync_Init` returns once its assertions hold, in closed form. -/
theorem Init_eq (sync : UartRxSync_t) (config : UartRxSync_Config_t)
    (huart : UART_HandleTypeDef) (hdmarx : DMA_HandleTypeDef) (buffer : List Byte)
    (callback : UartRxSync_DecodeData_Callback)
    (h1 : config.huart = some huart) (h2 : huart.hdmarx = some hdmarx)
    (h3 : hdmarx.Init_Mode = DMA_Mode.DMA_CIRCULAR) (h4 : config.buffer = some buffer)
    (h5 : config.decode_data_callback = some callback)
    (h6 : 0 < config.header.len) (h7 : config.header.len < config.frame_len)
    (h8 : config.header.len ≤ UART_RX_SYNC_MAX_HDR) (h9 : config.user ≠ 0)
    (hcontent : config.header.len ≤ config.header.content.length)
    (hsync : sync.hdr.length = UART_RX_SYNC_MAX_HDR) :
    UartRxSync_Init sync config =
      .ok ({ sync with
              huart := huart
              hdr_len := config.header.len
              hdr := config.header.content.take config.header.len ++
                sync.hdr.drop config.header.len
              frame_len := config.frame_len
              buffer := buffer
              user := config.user
              decode := callback
              hdr_idx := 0
              sync_state := UART_RX_SYNC_WAIT_HEAD },
           [Event.Receive_IT 0 1]) := by
  have hm : config.header.len ≤ config.header.content.length ∧
      config.header.len ≤ sync.hdr.length := ⟨hcontent, by omega⟩
  simp [UartRxSync_Init, assert_param, memcpy, h1, h2, h3, h4, h5, h6, h7, h8, h9, hm]

/-- C8, amended. For a configuration that passes every assertion of
`UartRxSync_Init` (the documented constraints and, beyond them, a user context
that is not null and a transport handle whose receive DMA is there and
circular) and whose header content holds `header.len` bytes, initialization of
a context (whose `hdr` is the array of `UART_RX_SYNC_MAX_HDR` bytes) returns a
context in `UART_RX_SYNC_WAIT_HEAD` with `hdr_idx = 0`, `hdr_len = header.len`,
`hdr[0..hdr_len)` equal to `header.content[0..hdr_len)` and
`frame_len = config.frame_len`, and issues exactly one request: a single-byte
reception at buffer offset 0. -/
theorem Init_establishes (sync : UartRxSync_t) (config : UartRxSync_Config_t)
    (hvalid : init_asserts config)
    (hcontent : config.header.len ≤ config.header.content.length)
    (hsync : sync.hdr.length = UART_RX_SYNC_MAX_HDR) :
    ∃ sync' trace, UartRxSync_Init sync config = .ok (sync', trace) ∧
      trace = [Event.Receive_IT 0 1] ∧
      sync'.sync_state = UART_RX_SYNC_WAIT_HEAD ∧ sync'.hdr_idx = 0 ∧
      sync'.hdr_len = config.header.len ∧
      (∀ i, i < sync'.hdr_len → sync'.hdr[i]? = config.header.content[i]?) ∧
      sync'.frame_len = config.frame_len ∧
      sync'.hdr.length = UART_RX_SYNC_MAX_HDR := by
  obtain ⟨⟨huart, h1, hdmarx, h2, h3⟩, h6, h7, h8, hb, h9, hc⟩ := hvalid
  obtain ⟨buffer, h4⟩ := Option.ne_none_iff_exists'.mp hb
  obtain ⟨callback, h5⟩ := Option.isSome_iff_exists.mp hc
  refine ⟨_, _, Init_eq sync config huart hdmarx buffer callback h1 h2 h3 h4 h5 h6 h7 h8 h9
    hcontent hsync, rfl, rfl, rfl, rfl, ?_, rfl, ?_⟩
  · intro i hi
    have hi2 : i < config.header.len := hi
    have hl : i < (config.header.content.take config.header.len).length := by
      rw [List.length_take]; omega
    show (config.header.content.take config.header.len ++
      sync.hdr.drop config.header.len)[i]? = _
    rw [List.getElem?_append_left hl, List.getElem?_take_of_lt hi2]
  · show (config.header.content.take config.header.len ++
      sync.hdr.drop config.header.len).length = _
    rw [List.length_append, List.length_take, List.length_drop]
    omega

/-- Witness for C8: the example configuration, into memory that held another context. -/
theorem Init_establishes_witness :
    (init_asserts config_example ∧
      config_example.header.len ≤ config_example.header.content.length ∧
      ctx_raw.hdr.length = UART_RX_SYNC_MAX_HDR) ∧
    ∃ sync' trace, UartRxSync_Init ctx_raw config_example = .ok (sync', trace) ∧
      trace = [Event.Receive_IT 0 1] ∧
      sync'.sync_state = UART_RX_SYNC_WAIT_HEAD ∧ sync'.hdr_idx = 0 ∧
      sync'.hdr_len = 2 ∧
      (∀ i, i < sync'.hdr_len → sync'.hdr[i]? = ([0xAA, 0x55] : List Byte)[i]?) ∧
      sync'.frame_len = 6 ∧
      sync'.hdr.length = UART_RX_SYNC_MAX_HDR :=
  ⟨⟨⟨⟨_, rfl, _, rfl, rfl⟩, by decide, by decide, by decide, by decide, by decide, rfl⟩,
      by decide, by decide⟩,
   Init_establishes ctx_raw config_example
     ⟨⟨_, rfl, _, rfl, rfl⟩, by decide, by decide, by decide, by decide, by decide, rfl⟩
     (by decide) (by decide)⟩

/-- C8 as stated fails: a configuration can meet every documented constraint
and yet `UartRxSync_Init` produces no context for it.  The example
configuration with a null user context, and the one over a receive DMA that is
not circular, are both ended by an assertion. -/
theorem Init_documented_not_enough :
    (documented_constraints config_null_user ∧
      config_null_user.header.len ≤ config_null_user.header.content.length ∧
      ctx_raw.hdr.length = UART_RX_SYNC_MAX_HDR ∧
      ¬ ∃ sync trace, UartRxSync_Init ctx_raw config_null_user = .ok (sync, trace)) ∧
    (documented_constraints config_normal_dma ∧
      config_normal_dma.header.len ≤ config_normal_dma.header.content.length ∧
      ¬ ∃ sync trace, UartRxSync_Init ctx_raw config_normal_dma = .ok (sync, trace)) := by
  have h1 : UartRxSync_Init ctx_raw config_null_user = .error .assert_failed := rfl
  have h2 : UartRxSync_Init ctx_raw config_normal_dma = .error .assert_failed := rfl
  refine ⟨⟨⟨by decide, by decide, rfl, by decide, by decide, by decide⟩, by decide,
    by decide, ?_⟩,
    ⟨⟨by decide, by decide, rfl, by decide, by decide, by decide⟩, by decide, ?_⟩⟩
  · rintro ⟨sync, trace, h⟩
    rw [h1] at h
    cases h
  · rintro ⟨sync, trace, h⟩
    rw [h2] at h
    cases h

/-- C9, amended. `UartRxSync_Init` is rejected by its assertions exactly when
the transport handle is null, `header.len` is 0 or exceeds
`UART_RX_SYNC_MAX_HDR`, `frame_len <= header.len`, the buffer is null, the user
context is null, the decode callback is null, the handle has no receive DMA,
or that DMA is not in circular mode. -/
theorem Init_rejects_iff (sync : UartRxSync_t) (config : UartRxSync_Config_t) :
    UartRxSync_Init sync config = .error .assert_failed ↔
      (config.huart = none ∨ config.header.len = 0 ∨
        config.frame_len ≤ config.header.len ∨
        UART_RX_SYNC_MAX_HDR < config.header.len ∨
        config.buffer = none ∨ config.user = 0 ∨
        config.decode_data_callback.isSome = false ∨
        ∃ huart, config.huart = some huart ∧
          (huart.hdmarx = none ∨
            ∃ hdmarx, huart.hdmarx = some hdmarx ∧
              hdmarx.Init_Mode ≠ DMA_Mode.DMA_CIRCULAR)) := by
  unfold UartRxSync_Init assert_param
  rcases hu : config.huart with _ | huart
  · simp
  rcases hb : config.buffer with _ | buffer
  · simp
  rcases hc : config.decode_data_callback with _ | callback
  · simp
  simp only []
  by_cases h6 : config.header.len = 0
  · simp [h6]
  by_cases h7 : config.frame_len ≤ config.header.len
  · simp [h7]
  by_cases h8 : UART_RX_SYNC_MAX_HDR < config.header.len
  · simp [h8]
  by_cases h9 : config.user = 0
  · simp [h9]
  have h6p : 0 < config.header.len := by omega
  have h7p : config.header.len < config.frame_len := by omega
  have h8p : config.header.len ≤ UART_RX_SYNC_MAX_HDR := by omega
  simp only [ne_eq, not_false_eq_true, decide_True, decide_eq_true_eq, h6p, h7p, h8p, h9,
    if_true, reduceCtorEq, Option.isSome_some, Option.some.injEq, exists_eq_left',
    Bool.true_eq_false, gt_iff_lt, ite_true, h6, h7, h8, false_or]
  rcases hd : huart.hdmarx with _ | hdmarx
  · simp
  by_cases hm : hdmarx.Init_Mode = DMA_Mode.DMA_CIRCULAR
  · by_cases hcp : config.header.len ≤ config.header.content.length ∧
        config.header.len ≤ sync.hdr.length
    · simp [hm, memcpy, hcp]
    · simp [hm, memcpy, hcp]
  · simp [hm]

/-- C9 as stated fails: the example configuration with a null user context
meets every documented constraint and is rejected by an assertion. -/
theorem Init_rejects_null_user :
    ¬ (UartRxSync_Init ctx_raw config_null_user = .error .assert_failed ↔
        ¬ documented_constraints config_null_user) := by
  intro h
  have hrej : UartRxSync_Init ctx_raw config_null_user = .error .assert_failed := rfl
  have hdoc : documented_constraints config_null_user :=
    ⟨by decide, by decide, rfl, by decide, by decide, by decide⟩
  exact (h.mp hrej) hdoc

/-! ## The connection query -/

/-- C10. `UartRxSync_isConnected` returns true exactly in
`UART_RX_SYNC_DMA_ACTIVE` and leaves the context as it is.  Hence it is false
after `UartRxSync_Init`, false after every `UartRxSync_RxErrorHandler` call
that saw an error, false after every `UartRxSync_RxCallback` call made in
`UART_RX_SYNC_WAIT_HEAD`, true after every call made in
`UART_RX_SYNC_RECEIVING`, and after a call made in `UART_RX_SYNC_DMA_ACTIVE`
true exactly when `buffer[0..hdr_len)` equals the header. -/
theorem isConnected_iff_steady (DEBUG : Bool) :
    (∀ sync, (UartRxSync_isConnected sync).1 = true ↔
      sync.sync_state = UART_RX_SYNC_DMA_ACTIVE) ∧
    (∀ sync, (UartRxSync_isConnected sync).2 = sync) ∧
    (∀ sync config, init_asserts config →
      config.header.len ≤ config.header.content.length →
      sync.hdr.length = UART_RX_SYNC_MAX_HDR →
      ∃ sync' trace, UartRxSync_Init sync config = .ok (sync', trace) ∧
        (UartRxSync_isConnected sync').1 = false) ∧
    (∀ sync, sync.huart.ErrorCode ≠ HAL_UART_ERROR_NONE →
      (UartRxSync_isConnected (UartRxSync_RxErrorHandler DEBUG sync).1).1 = false) ∧
    (∀ sync, sync.sync_state = UART_RX_SYNC_WAIT_HEAD → 1 ≤ sync.hdr_len →
      sync.hdr_idx < sync.hdr_len → memory_ok sync →
      ∃ sync' trace, UartRxSync_RxCallback DEBUG sync = .ok (sync', trace) ∧
        (UartRxSync_isConnected sync').1 = false) ∧
    (∀ sync, sync.sync_state = UART_RX_SYNC_RECEIVING →
      ∃ sync' trace, UartRxSync_RxCallback DEBUG sync = .ok (sync', trace) ∧
        (UartRxSync_isConnected sync').1 = true) ∧
    (∀ sync, sync.sync_state = UART_RX_SYNC_DMA_ACTIVE → memory_ok sync →
      ∃ sync' trace, UartRxSync_RxCallback DEBUG sync = .ok (sync', trace) ∧
        ((UartRxSync_isConnected sync').1 = true ↔
          ∀ i, i < sync.hdr_len → sync.buffer[i]? = sync.hdr[i]?)) := by
  have hconn : ∀ sync, (UartRxSync_isConnected sync).1 = true ↔
      sync.sync_state = UART_RX_SYNC_DMA_ACTIVE := by
    intro sync
    simp [UartRxSync_isConnected]
  have hnot : ∀ sync, sync.sync_state ≠ UART_RX_SYNC_DMA_ACTIVE →
      (UartRxSync_isConnected sync).1 = false := by
    intro sync hne
    simp [UartRxSync_isConnected, hne]
  refine ⟨hconn, fun _ => rfl, ?_, ?_, ?_, ?_, ?_⟩
  · intro sync config hvalid hcontent hsync
    obtain ⟨⟨huart, h1, hdmarx, h2, h3⟩, h6, h7, h8, hb, h9, hc⟩ := hvalid
    obtain ⟨buffer, h4⟩ := Option.ne_none_iff_exists'.mp hb
    obtain ⟨callback, h5⟩ := Option.isSome_iff_exists.mp hc
    exact ⟨_, _, Init_eq sync config huart hdmarx buffer callback h1 h2 h3 h4 h5 h6 h7 h8 h9
      hcontent hsync, rfl⟩
  · intro sync herr
    apply hnot
    cases DEBUG <;> cases hs : sync.sync_state <;>
      simp [UartRxSync_RxErrorHandler, RX_ERROR_EVENT, herr, hs]
  · intro sync hstate hlen hidx hmem
    have hcl := RxCallback_wait_head DEBUG sync hstate hlen hidx hmem
    by_cases hw : window_matches sync.hdr sync.buffer ((sync.hdr_idx + 1) % sync.hdr_len)
        sync.hdr_len
    · rw [if_pos hw] at hcl
      exact ⟨_, _, hcl, rfl⟩
    · rw [if_neg hw] at hcl
      refine ⟨_, _, hcl, ?_⟩
      apply hnot
      show sync.sync_state ≠ UART_RX_SYNC_DMA_ACTIVE
      rw [hstate]
      decide
  · intro sync hstate
    refine ⟨_, _, RxCallback_receiving DEBUG sync hstate, ?_⟩
    rw [hconn, (decode_fields DEBUG _).1]
  · intro sync hstate hmem
    have hcl := RxCallback_dma_active DEBUG sync hstate hmem
    have hr1 : (RECEIVED DEBUG sync).sync_state = sync.sync_state := by cases DEBUG <;> rfl
    by_cases hw : ∀ i, i < sync.hdr_len → sync.buffer[i]? = sync.hdr[i]?
    · rw [if_pos hw] at hcl
      refine ⟨(decode DEBUG (RECEIVED DEBUG sync)).1, (decode DEBUG (RECEIVED DEBUG sync)).2,
        hcl, ?_⟩
      rw [hconn, (decode_fields DEBUG _).1, hr1]
      exact ⟨fun _ => hw, fun _ => hstate⟩
    · rw [if_neg hw] at hcl
      refine ⟨_, _, hcl, ?_⟩
      constructor
      · intro h
        exact absurd h (by simp [UartRxSync_isConnected])
      · intro h
        exact absurd h hw

/-- Witness for C10: the query is false after the desynchronised steady-state
frame of the example and true after the frame whose header is in place. -/
theorem isConnected_iff_steady_witness :
    (ctx_desync.sync_state = UART_RX_SYNC_DMA_ACTIVE ∧ memory_ok ctx_desync) ∧
    (∃ sync' trace, UartRxSync_RxCallback true ctx_desync = .ok (sync', trace) ∧
      ((UartRxSync_isConnected sync').1 = true ↔
        ∀ i, i < ctx_desync.hdr_len → ctx_desync.buffer[i]? = ctx_desync.hdr[i]?)) ∧
    ((UartRxSync_isConnected ctx_dma_active).1 = true ↔
      ctx_dma_active.sync_state = UART_RX_SYNC_DMA_ACTIVE) :=
  ⟨by decide,
   (isConnected_iff_steady true).2.2.2.2.2.2 ctx_desync (by decide) (by decide),
   (isConnected_iff_steady true).1 ctx_dma_active⟩

/-! ## Byte streams -/

theorem feed_nil (DEBUG : Bool) (link : Link) : feed DEBUG link [] = .ok (link, []) := rfl

theorem feed_cons (DEBUG : Bool) (link : Link) (b : Byte) (rest : List Byte) :
    feed DEBUG link (b :: rest) =
      match Link.byte DEBUG link b with
      | .error e => .error e
      | .ok (link1, trace1) =>
        match feed DEBUG link1 rest with
        | .error e => .error e
        | .ok (link2, trace2) => .ok (link2, trace1 ++ trace2) := rfl

theorem feed_append (DEBUG : Bool) (xs ys : List Byte) :
    ∀ link : Link, feed DEBUG link (xs ++ ys) =
      match feed DEBUG link xs with
      | .error e => .error e
      | .ok (link1, trace1) =>
        match feed DEBUG link1 ys with
        | .error e => .error e
        | .ok (link2, trace2) => .ok (link2, trace1 ++ trace2) := by
  induction xs with
  | nil =>
    intro link
    rw [List.nil_append, feed_nil]
    simp only []
    cases feed DEBUG link ys with
    | error e => rfl
    | ok r => simp
  | cons x xs ih =>
    intro link
    rw [List.cons_append, feed_cons, feed_cons]
    cases Link.byte DEBUG link x with
    | error e => rfl
    | ok r =>
      obtain ⟨link1, trace1⟩ := r
      simp only []
      rw [ih link1]
      cases feed DEBUG link1 xs with
      | error e => rfl
      | ok r2 =>
        obtain ⟨link2, trace2⟩ := r2
        simp only []
        cases feed DEBUG link2 ys with
        | error e => rfl
        | ok r3 => simp [List.append_assoc]

theorem ring_holds_step (len : Nat) (v buffer : List Byte) (n : Nat) (b : Byte)
    (hlen : 1 ≤ len) (hcap : len ≤ buffer.length)
    (hring : ring_holds len v n buffer) (hb : v[n + len]? = some b) :
    ring_holds len v (n + 1) (buffer.set (n % len) b) := by
  intro i hi
  have hpos : 0 < len := by omega
  have hnl : n % len < len := Nat.mod_lt _ hpos
  by_cases hlast : i + 1 = len
  · have e1 : (n + 1 + i) % len = n % len := by
      have : n + 1 + i = n + len := by omega
      rw [this, Nat.add_mod_right]
    have e2 : n + 1 + i = n + len := by omega
    rw [e1, e2, hb, List.getElem?_set_self (by omega)]
  · have hne : n % len ≠ (n + 1 + i) % len := by
      intro heq
      have h1 : (n + 0) % len = (n + (i + 1)) % len := by
        rw [Nat.add_zero, heq]
        congr 1
        omega
      have h2 : (0 : Nat) ≡ i + 1 [MOD len] := Nat.ModEq.add_left_cancel' n h1
      have h3 : 0 % len = (i + 1) % len := h2
      rw [Nat.zero_mod, Nat.mod_eq_of_lt (by omega)] at h3
      omega
    rw [List.getElem?_set_ne hne]
    have := hring (i + 1) (by omega)
    have e1 : n + (i + 1) = n + 1 + i := by omega
    rw [e1] at this
    exact this

theorem window_of_ring (hdr v buffer : List Byte) (len n : Nat)
    (hring : ring_holds len v n buffer) :
    window_matches hdr buffer (n % len) len ↔ header_at hdr len v n := by
  unfold window_matches header_at
  constructor
  · intro h i hi
    have h1 := h i hi
    rw [Nat.mod_add_mod] at h1
    rw [← hring i hi]
    exact h1
  · intro h i hi
    rw [Nat.mod_add_mod, hring i hi]
    exact h i hi

/-- One byte of the search: the context holds the ring of the `n` bytes fed so
far, the byte is stored at `n mod hdr_len`, and the callback leaves the search
exactly when the bytes from position `n + 1` on are the header. -/
theorem search_step (DEBUG : Bool) (sync : UartRxSync_t) (v : List Byte) (n : Nat) (b : Byte)
    (hstate : sync.sync_state = UART_RX_SYNC_WAIT_HEAD) (hlen : 1 ≤ sync.hdr_len)
    (hmem : memory_ok sync) (hidx : sync.hdr_idx = n % sync.hdr_len)
    (hring : ring_holds sync.hdr_len v n sync.buffer)
    (hb : v[n + sync.hdr_len]? = some b) :
    Link.byte DEBUG
        { sync := sync
          pending := some { offset := n % sync.hdr_len, size := 1, circular := false }
          received := 0 } b =
      .ok (if header_at sync.hdr sync.hdr_len v (n + 1) then
             ({ sync := { HDR_MATCH DEBUG
                            { sync with buffer := sync.buffer.set (n % sync.hdr_len) b } with
                          sync_state := UART_RX_SYNC_RECEIVING }
                pending := some { offset := sync.hdr_len
                                  size := size_sub sync.frame_len sync.hdr_len
                                  circular := true }
                received := 0 },
              [Event.Receive_DMA sync.hdr_len (size_sub sync.frame_len sync.hdr_len)])
           else
             ({ sync := { sync with
                          buffer := sync.buffer.set (n % sync.hdr_len) b
                          hdr_idx := (n + 1) % sync.hdr_len }
                pending := some { offset := (n + 1) % sync.hdr_len, size := 1, circular := false }
                received := 0 },
              [Event.Receive_IT ((n + 1) % sync.hdr_len) 1])) := by
  have hnl : n % sync.hdr_len < sync.hdr_len := Nat.mod_lt _ (by omega)
  have hmem' := hmem
  obtain ⟨hm1, hm2, hm3⟩ := hmem
  have hmem1 : memory_ok { sync with buffer := sync.buffer.set (n % sync.hdr_len) b } := by
    refine ⟨hm1, hm2, ?_⟩
    show sync.hdr_len ≤ (sync.buffer.set (n % sync.hdr_len) b).length
    rw [List.length_set]
    exact hm3
  have hring1 := ring_holds_step sync.hdr_len v sync.buffer n b hlen hm3 hring hb
  have hcl := RxCallback_wait_head DEBUG
    { sync with buffer := sync.buffer.set (n % sync.hdr_len) b } hstate hlen
    (by show sync.hdr_idx < sync.hdr_len; omega) hmem1
  have hwin := window_of_ring sync.hdr v (sync.buffer.set (n % sync.hdr_len) b) sync.hdr_len
    (n + 1) hring1
  have hnext : (sync.hdr_idx + 1) % sync.hdr_len = (n + 1) % sync.hdr_len := by
    rw [hidx, Nat.mod_add_mod]
  simp only [hnext] at hcl
  have hlt : n % sync.hdr_len < sync.buffer.length := by omega
  unfold Link.byte
  simp only [Nat.zero_add, Nat.add_zero, hlt, if_true, hcl]
  by_cases hw : header_at sync.hdr sync.hdr_len v (n + 1)
  · rw [if_pos (hwin.mpr hw), if_pos hw]
    rfl
  · rw [if_neg (fun h => hw (hwin.mp h)), if_neg hw]
    rfl

theorem decode_calls_append (xs ys : List Event) :
    decode_calls (xs ++ ys) = decode_calls xs ++ decode_calls ys := by
  unfold decode_calls
  rw [List.filter_append]

theorem take_append_get (buffer stream : List Byte) (len n : Nat) (hcap : len ≤ buffer.length) :
    (buffer.take len ++ stream)[n + len]? = stream[n]? := by
  have hl : (buffer.take len).length = len := by
    rw [List.length_take]; omega
  rw [List.getElem?_append_right (by omega), hl, Nat.add_sub_cancel]

/-- The search from `hdr_idx = 0` over the first `n` bytes of a stream, none of
which completes the header: the context has only moved `hdr_idx` and filled
the ring, a single-byte reception is outstanding, no decoder call was made. -/
theorem search_run (DEBUG : Bool) (sync : UartRxSync_t) (stream : List Byte)
    (hstate : sync.sync_state = UART_RX_SYNC_WAIT_HEAD) (hlen : 1 ≤ sync.hdr_len)
    (hmem : memory_ok sync) (hidx0 : sync.hdr_idx = 0) :
    ∀ n, n ≤ stream.length →
      (∀ m, 1 ≤ m → m ≤ n →
        ¬ header_at sync.hdr sync.hdr_len (sync.buffer.take sync.hdr_len ++ stream) m) →
      ∃ B trace,
        feed DEBUG { sync := sync
                     pending := some { offset := 0, size := 1, circular := false }
                     received := 0 } (stream.take n) =
          .ok ({ sync := { sync with hdr_idx := n % sync.hdr_len, buffer := B }
                 pending := some { offset := n % sync.hdr_len, size := 1, circular := false }
                 received := 0 }, trace) ∧
        ring_holds sync.hdr_len (sync.buffer.take sync.hdr_len ++ stream) n B ∧
        B.length = sync.buffer.length ∧ decode_calls trace = [] := by
  have hmem' := hmem
  obtain ⟨hm1, hm2, hm3⟩ := hmem'
  intro n
  induction n with
  | zero =>
    intro _ _
    refine ⟨sync.buffer, [], ?_, ?_, rfl, rfl⟩
    · have hs : ({ sync with hdr_idx := 0 % sync.hdr_len, buffer := sync.buffer } :
          UartRxSync_t) = sync := by
        rw [Nat.zero_mod, ← hidx0]
      rw [List.take_zero, feed_nil, hs, Nat.zero_mod]
    · intro i hi
      rw [Nat.zero_add, Nat.mod_eq_of_lt hi,
        List.getElem?_append_left (by rw [List.length_take]; omega),
        List.getElem?_take_of_lt hi]
  | succ n ih =>
    intro hn hno
    obtain ⟨B, trace, hfeed, hring, hBlen, hdc⟩ :=
      ih (by omega) (fun m h1 h2 => hno m h1 (by omega))
    have hlt : n < stream.length := by omega
    have htake : stream.take (n + 1) = stream.take n ++ [stream[n]] := by
      rw [List.take_succ, List.getElem?_eq_getElem hlt]
      rfl
    have hb : (sync.buffer.take sync.hdr_len ++ stream)[n + sync.hdr_len]? =
        some stream[n] := by
      rw [take_append_get _ _ _ _ hm3, List.getElem?_eq_getElem hlt]
    have hstep := search_step DEBUG
      { sync with hdr_idx := n % sync.hdr_len, buffer := B }
      (sync.buffer.take sync.hdr_len ++ stream) n stream[n] hstate hlen
      ⟨hm1, hm2, by show sync.hdr_len ≤ B.length; omega⟩ rfl hring hb
    rw [if_neg (hno (n + 1) (by omega) (by omega))] at hstep
    refine ⟨B.set (n % sync.hdr_len) stream[n],
      trace ++ ([Event.Receive_IT ((n + 1) % sync.hdr_len) 1] ++ []), ?_, ?_, ?_, ?_⟩
    · rw [htake, feed_append, hfeed]
      simp only []
      rw [feed_cons, hstep]
      simp only [feed_nil]
    · exact ring_holds_step sync.hdr_len _ B n stream[n] hlen (by omega) hring hb
    · rw [List.length_set, hBlen]
    · rw [decode_calls_append, hdc]
      rfl

/-- The bytes of a reception that do not complete it are stored and cause no
callback. -/
theorem bulk_fill (DEBUG : Bool) (r : Reception) :
    ∀ (p : List Byte) (sync : UartRxSync_t) (j : Nat),
      j + p.length < r.size → r.offset + j + p.length ≤ sync.buffer.length →
      ∃ B, stored sync.buffer B (r.offset + j) p ∧
        feed DEBUG { sync := sync, pending := some r, received := j } p =
          .ok ({ sync := { sync with buffer := B }, pending := some r,
                 received := j + p.length }, []) := by
  intro p
  induction p with
  | nil =>
    intro sync j _ _
    refine ⟨sync.buffer, ⟨rfl, ?_⟩, rfl⟩
    intro i
    rw [if_neg]
    simp
  | cons b p ih =>
    intro sync j hsz hcap
    rw [List.length_cons] at hsz hcap
    obtain ⟨B, ⟨hBlen, hB⟩, hfeed⟩ := ih
      { sync with buffer := sync.buffer.set (r.offset + j) b } (j + 1) (by omega)
      (by show r.offset + (j + 1) + p.length ≤ (sync.buffer.set (r.offset + j) b).length
          rw [List.length_set]; omega)
    refine ⟨B, ⟨?_, ?_⟩, ?_⟩
    · rw [hBlen]
      show (sync.buffer.set (r.offset + j) b).length = _
      rw [List.length_set]
    · intro i
      rw [hB i]
      show (if r.offset + (j + 1) ≤ i ∧ i < r.offset + (j + 1) + p.length
        then p[i - (r.offset + (j + 1))]? else (sync.buffer.set (r.offset + j) b)[i]?) = _
      by_cases h1 : r.offset + (j + 1) ≤ i ∧ i < r.offset + (j + 1) + p.length
      · rw [if_pos h1, if_pos (by rw [List.length_cons]; omega)]
        have e : i - (r.offset + j) = (i - (r.offset + (j + 1))) + 1 := by omega
        rw [e, List.getElem?_cons_succ]
      · rw [if_neg h1]
        by_cases h2 : i = r.offset + j
        · subst h2
          rw [List.getElem?_set_self (by omega), if_pos (by rw [List.length_cons]; omega),
            Nat.sub_self, List.getElem?_cons_zero]
        · rw [List.getElem?_set_ne (fun h => h2 h.symm), if_neg (by rw [List.length_cons]; omega)]
    · have hlt : r.offset + j < sync.buffer.length := by omega
      have hne : ¬ j + 1 = r.size := by omega
      rw [feed_cons]
      unfold Link.byte
      simp only [hlt, if_true, hne, if_false]
      rw [hfeed]
      simp only [List.nil_append, List.length_cons]
      have e : j + 1 + p.length = j + (p.length + 1) := by omega
      rw [e]

/-- A reception of `r.size ≥ 1` bytes completes on its last byte: the callback
runs on the buffer that holds the bytes, after which nothing of the reception
is left to store. -/
theorem bulk_complete (DEBUG : Bool) (sync : UartRxSync_t) (r : Reception) (p : List Byte)
    (hp : p.length = r.size) (hsz : 1 ≤ r.size)
    (hcap : r.offset + r.size ≤ sync.buffer.length) :
    ∃ B, stored sync.buffer B r.offset p ∧
      feed DEBUG { sync := sync, pending := some r, received := 0 } p =
        match UartRxSync_RxCallback DEBUG { sync with buffer := B } with
        | .error e => .error e
        | .ok (sync', trace) =>
          .ok ({ sync := sync'
                 pending := next_request (if r.circular then some r else none) trace
                 received := 0 }, trace) := by
  rcases List.eq_nil_or_concat p with hnil | ⟨q, b, hq⟩
  · subst hnil
    simp at hp
    omega
  rw [List.concat_eq_append] at hq
  subst hq
  rw [List.length_append, List.length_singleton] at hp
  obtain ⟨B1, ⟨hB1len, hB1⟩, hfill⟩ := bulk_fill DEBUG r q sync 0 (by omega) (by omega)
  rw [Nat.add_zero] at hB1
  refine ⟨B1.set (r.offset + q.length) b, ⟨?_, ?_⟩, ?_⟩
  · rw [List.length_set, hB1len]
  · intro i
    by_cases h2 : i = r.offset + q.length
    · subst h2
      rw [List.getElem?_set_self (by omega),
        if_pos (by rw [List.length_append, List.length_singleton]; omega),
        List.getElem?_append_right (by omega)]
      have e : r.offset + q.length - r.offset - q.length = 0 := by omega
      rw [e, List.getElem?_cons_zero]
    · rw [List.getElem?_set_ne (fun h => h2 h.symm), hB1 i]
      by_cases h1 : r.offset ≤ i ∧ i < r.offset + q.length
      · rw [if_pos h1, if_pos (by rw [List.length_append, List.length_singleton]; omega),
          List.getElem?_append_left (by omega)]
      · rw [if_neg h1, if_neg (by rw [List.length_append, List.length_singleton]; omega)]
  · have hlt : r.offset + q.length < B1.length := by omega
    rw [feed_append, hfill]
    simp only []
    rw [feed_cons]
    unfold Link.byte
    simp only [Nat.zero_add, hlt, if_true, hp, feed_nil]
    cases UartRxSync_RxCallback DEBUG
        { sync with buffer := B1.set (r.offset + q.length) b } with
    | error e => rfl
    | ok res => simp

theorem stored_view (buffer filled : List Byte) (offset : Nat) (p : List Byte)
    (hst : stored buffer filled offset p) :
    (filled.drop offset).take p.length = p := by
  obtain ⟨_, hget⟩ := hst
  apply List.ext_getElem?
  intro i
  by_cases hi : i < p.length
  · rw [List.getElem?_take_of_lt hi, List.getElem?_drop, hget, if_pos (by omega)]
    congr 1
    omega
  · rw [List.getElem?_eq_none (by rw [List.length_take]; omega),
      List.getElem?_eq_none (by omega)]

/-- The byte on which the search ends: the first position `k` at which the
bytes fed so far, after the bytes the ring held at the start, end with the
header. -/
theorem search_hit (DEBUG : Bool) (sync : UartRxSync_t) (stream : List Byte)
    (hstate : sync.sync_state = UART_RX_SYNC_WAIT_HEAD) (hlen : 1 ≤ sync.hdr_len)
    (hmem : memory_ok sync) (hidx0 : sync.hdr_idx = 0)
    (k : Nat) (hk1 : 1 ≤ k) (hk : k ≤ stream.length)
    (hno : ∀ m, 1 ≤ m → m < k →
      ¬ header_at sync.hdr sync.hdr_len (sync.buffer.take sync.hdr_len ++ stream) m)
    (hhit : header_at sync.hdr sync.hdr_len (sync.buffer.take sync.hdr_len ++ stream) k) :
    ∃ B link trace,
      feed DEBUG { sync := sync
                   pending := some { offset := 0, size := 1, circular := false }
                   received := 0 } (stream.take (k - 1)) = .ok (link, trace) ∧
      feed DEBUG { sync := sync
                   pending := some { offset := 0, size := 1, circular := false }
                   received := 0 } (stream.take k) =
        .ok ({ sync := { HDR_MATCH DEBUG
                           { sync with hdr_idx := (k - 1) % sync.hdr_len, buffer := B } with
                         sync_state := UART_RX_SYNC_RECEIVING }
               pending := some { offset := sync.hdr_len
                                 size := size_sub sync.frame_len sync.hdr_len
                                 circular := true }
               received := 0 },
             trace ++ [Event.Receive_DMA sync.hdr_len (size_sub sync.frame_len sync.hdr_len)]) ∧
      B.length = sync.buffer.length ∧ decode_calls trace = [] := by
  obtain ⟨hm1, hm2, hm3⟩ := id hmem
  obtain ⟨n, rfl⟩ : ∃ n, k = n + 1 := ⟨k - 1, by omega⟩
  obtain ⟨B, trace, hfeed, hring, hBlen, hdc⟩ :=
    search_run DEBUG sync stream hstate hlen hmem hidx0 n (by omega)
      (fun m h1 h2 => hno m h1 (by omega))
  have hlt : n < stream.length := by omega
  have htake : stream.take (n + 1) = stream.take n ++ [stream[n]] := by
    rw [List.take_succ, List.getElem?_eq_getElem hlt]
    rfl
  have hb : (sync.buffer.take sync.hdr_len ++ stream)[n + sync.hdr_len]? =
      some stream[n] := by
    rw [take_append_get _ _ _ _ hm3, List.getElem?_eq_getElem hlt]
  have hstep := search_step DEBUG
    { sync with hdr_idx := n % sync.hdr_len, buffer := B }
    (sync.buffer.take sync.hdr_len ++ stream) n stream[n] hstate hlen
    ⟨hm1, hm2, by show sync.hdr_len ≤ B.length; omega⟩ rfl hring hb
  rw [if_pos hhit] at hstep
  refine ⟨B.set (n % sync.hdr_len) stream[n],
    { sync := { sync with hdr_idx := n % sync.hdr_len, buffer := B }
      pending := some { offset := n % sync.hdr_len, size := 1, circular := false }
      received := 0 }, trace, ?_, ?_, ?_, hdc⟩
  · rw [Nat.add_sub_cancel]
    exact hfeed
  · rw [htake, feed_append, hfeed]
    simp only []
    rw [feed_cons, hstep]
    simp only [feed_nil, Nat.add_sub_cancel, List.append_nil]
  · rw [List.length_set, hBlen]

/-- The bulk reception of the rest of the first frame: its last byte brings the
callback, which asks for the next full frame, calls the decoder once, on a view
that starts with the bytes received, and ends in `UART_RX_SYNC_DMA_ACTIVE`. -/
theorem frame_after_hit (DEBUG : Bool) (sync : UartRxSync_t) (size : Nat) (payload : List Byte)
    (hstate : sync.sync_state = UART_RX_SYNC_RECEIVING)
    (hp : payload.length = size) (hsz : 1 ≤ size)
    (hcap : sync.hdr_len + size ≤ sync.buffer.length) :
    ∃ sync' view,
      feed DEBUG { sync := sync
                   pending := some { offset := sync.hdr_len, size := size, circular := true }
                   received := 0 } payload =
        .ok ({ sync := sync'
               pending := some { offset := 0, size := sync.frame_len, circular := true }
               received := 0 },
             [Event.AbortReceive, Event.Receive_DMA 0 sync.frame_len,
              Event.decode_call sync.hdr_len view]) ∧
      sync'.sync_state = UART_RX_SYNC_DMA_ACTIVE ∧ view.take payload.length = payload := by
  obtain ⟨B, hst, hfeed⟩ := bulk_complete DEBUG sync
    { offset := sync.hdr_len, size := size, circular := true } payload hp hsz hcap
  have hcb := RxCallback_receiving DEBUG { sync with buffer := B } hstate
  rw [hcb] at hfeed
  refine ⟨_, B.drop sync.hdr_len, hfeed, ?_, stored_view _ _ _ _ hst⟩
  rw [(decode_fields DEBUG _).1]

theorem HDR_MATCH_hdr_len (DEBUG : Bool) (sync : UartRxSync_t) :
    (HDR_MATCH DEBUG sync).hdr_len = sync.hdr_len := by cases DEBUG <;> rfl

theorem HDR_MATCH_frame_len (DEBUG : Bool) (sync : UartRxSync_t) :
    (HDR_MATCH DEBUG sync).frame_len = sync.frame_len := by cases DEBUG <;> rfl

theorem HDR_MATCH_buffer (DEBUG : Bool) (sync : UartRxSync_t) :
    (HDR_MATCH DEBUG sync).buffer = sync.buffer := by cases DEBUG <;> rfl

/-- From a context that searches with `hdr_idx = 0` to the end of the first
frame: `pre` is the stream up to the byte on which the ring first holds the
header, `payload` the `frame_len - hdr_len` bytes that follow. -/
theorem first_frame (DEBUG : Bool) (sync : UartRxSync_t) (pre payload : List Byte)
    (hstate : sync.sync_state = UART_RX_SYNC_WAIT_HEAD) (hlen : 1 ≤ sync.hdr_len)
    (hmem : memory_ok sync) (hidx0 : sync.hdr_idx = 0)
    (hfl : sync.hdr_len < sync.frame_len) (hcap : sync.frame_len ≤ sync.buffer.length)
    (hsz : sync.frame_len < SIZE_MOD) (hk1 : 1 ≤ pre.length)
    (hno : ∀ m, 1 ≤ m → m < pre.length →
      ¬ header_at sync.hdr sync.hdr_len (sync.buffer.take sync.hdr_len ++ pre) m)
    (hhit : header_at sync.hdr sync.hdr_len (sync.buffer.take sync.hdr_len ++ pre) pre.length)
    (hpay : payload.length = sync.frame_len - sync.hdr_len) :
    (∀ m, m < pre.length → ∃ link trace,
      feed DEBUG { sync := sync
                   pending := some { offset := 0, size := 1, circular := false }
                   received := 0 } (pre.take m) = .ok (link, trace) ∧
      link.sync.sync_state = UART_RX_SYNC_WAIT_HEAD ∧ decode_calls trace = []) ∧
    ∃ link1 link2 link3 trace view,
      feed DEBUG { sync := sync
                   pending := some { offset := 0, size := 1, circular := false }
                   received := 0 } (pre.take (pre.length - 1)) = .ok (link1, trace) ∧
      decode_calls trace = [] ∧
      feed DEBUG { sync := sync
                   pending := some { offset := 0, size := 1, circular := false }
                   received := 0 } pre =
        .ok (link2,
             trace ++ [Event.Receive_DMA sync.hdr_len (sync.frame_len - sync.hdr_len)]) ∧
      link2.sync.sync_state = UART_RX_SYNC_RECEIVING ∧
      feed DEBUG link2 payload =
        .ok (link3, [Event.AbortReceive, Event.Receive_DMA 0 sync.frame_len,
                     Event.decode_call sync.hdr_len view]) ∧
      link3.sync.sync_state = UART_RX_SYNC_DMA_ACTIVE ∧
      view.take payload.length = payload := by
  constructor
  · intro m hm
    obtain ⟨B, trace, hfeed, _, _, hdc⟩ :=
      search_run DEBUG sync pre hstate hlen hmem hidx0 m (by omega)
        (fun m' h1 h2 => hno m' h1 (by omega))
    exact ⟨_, _, hfeed, hstate, hdc⟩
  · obtain ⟨B, link1, trace, hprev, hfeed, hBlen, hdc⟩ :=
      search_hit DEBUG sync pre hstate hlen hmem hidx0 pre.length hk1 (Nat.le_refl _) hno hhit
    rw [List.take_length, size_sub_eq _ _ (by omega) hsz] at hfeed
    obtain ⟨sync3, view, hbulk, hst3, hview⟩ :=
      frame_after_hit DEBUG
        { HDR_MATCH DEBUG
            { sync with hdr_idx := (pre.length - 1) % sync.hdr_len, buffer := B } with
          sync_state := UART_RX_SYNC_RECEIVING }
        (sync.frame_len - sync.hdr_len) payload rfl hpay (by omega)
        (by
          show (HDR_MATCH DEBUG _).hdr_len + _ ≤ (HDR_MATCH DEBUG _).buffer.length
          rw [HDR_MATCH_hdr_len, HDR_MATCH_buffer]
          show sync.hdr_len + (sync.frame_len - sync.hdr_len) ≤ B.length
          omega)
    cases DEBUG <;>
      exact ⟨link1, _, _, trace, view, hprev, hdc, hfeed, rfl, hbulk, hst3, hview⟩

theorem header_at_stream (hdr buffer pre : List Byte) (len m : Nat)
    (hcap : len ≤ buffer.length) (hm : len ≤ m) :
    header_at hdr len (buffer.take len ++ pre) m ↔
      ∀ i, i < len → pre[m - len + i]? = hdr[i]? := by
  have key : ∀ i, (buffer.take len ++ pre)[m + i]? = pre[m - len + i]? := by
    intro i
    have e : m + i = (m - len + i) + len := by omega
    rw [e, take_append_get _ _ _ _ hcap]
  unfold header_at
  constructor
  · intro h i hi
    rw [← key i]
    exact h i hi
  · intro h i hi
    rw [key i]
    exact h i hi

theorem header_at_congr (h1 h2 v : List Byte) (len m : Nat)
    (heq : ∀ i, i < len → h1[i]? = h2[i]?) :
    header_at h1 len v m ↔ header_at h2 len v m := by
  unfold header_at
  constructor
  · intro h i hi
    rw [← heq i hi]
    exact h i hi
  · intro h i hi
    rw [heq i hi]
    exact h i hi

theorem memcpy_prefix (content old : List Byte) (len : Nat)
    (hcontent : len ≤ content.length) :
    ∀ i, i < len → (content.take len ++ old.drop len)[i]? = content[i]? := by
  intro i hi
  rw [List.getElem?_append_left (by rw [List.length_take]; omega),
    List.getElem?_take_of_lt hi]

theorem memcpy_length (content old : List Byte) (len : Nat)
    (hcontent : len ≤ content.length) (hold : len ≤ old.length) :
    (content.take len ++ old.drop len).length = old.length := by
  rw [List.length_append, List.length_take, List.length_drop]
  omega

/-- From `UartRxSync_Init` to the end of the first frame. -/
theorem init_first_frame (DEBUG : Bool) (sync0 : UartRxSync_t) (config : UartRxSync_Config_t)
    (buffer pre payload : List Byte)
    (hvalid : init_asserts config)
    (hcontent : config.header.len ≤ config.header.content.length)
    (hsync : sync0.hdr.length = UART_RX_SYNC_MAX_HDR)
    (hbuf : config.buffer = some buffer) (hcap : config.frame_len ≤ buffer.length)
    (hsz : config.frame_len < SIZE_MOD) (hk1 : 1 ≤ pre.length)
    (hno : ∀ m, 1 ≤ m → m < pre.length →
      ¬ header_at config.header.content config.header.len
          (buffer.take config.header.len ++ pre) m)
    (hhit : header_at config.header.content config.header.len
      (buffer.take config.header.len ++ pre) pre.length)
    (hpay : payload.length = config.frame_len - config.header.len) :
    ∃ sync, UartRxSync_Init sync0 config = .ok (sync, [Event.Receive_IT 0 1]) ∧
      (∀ m, m < pre.length → ∃ link trace,
        feed DEBUG (Link.after_init sync [Event.Receive_IT 0 1]) (pre.take m) =
          .ok (link, trace) ∧
        link.sync.sync_state = UART_RX_SYNC_WAIT_HEAD ∧ decode_calls trace = []) ∧
      ∃ link1 link2 link3 trace view,
        feed DEBUG (Link.after_init sync [Event.Receive_IT 0 1])
          (pre.take (pre.length - 1)) = .ok (link1, trace) ∧
        decode_calls trace = [] ∧
        feed DEBUG (Link.after_init sync [Event.Receive_IT 0 1]) pre =
          .ok (link2, trace ++
            [Event.Receive_DMA config.header.len (config.frame_len - config.header.len)]) ∧
        link2.sync.sync_state = UART_RX_SYNC_RECEIVING ∧
        feed DEBUG link2 payload =
          .ok (link3, [Event.AbortReceive, Event.Receive_DMA 0 config.frame_len,
                       Event.decode_call config.header.len view]) ∧
        link3.sync.sync_state = UART_RX_SYNC_DMA_ACTIVE ∧
        view.take payload.length = payload := by
  obtain ⟨⟨huart, h1, hdmarx, h2, h3⟩, h6, h7, h8, hb, h9, hc⟩ := hvalid
  obtain ⟨callback, h5⟩ := Option.isSome_iff_exists.mp hc
  have hinit := Init_eq sync0 config huart hdmarx buffer callback h1 h2 h3 hbuf h5 h6 h7 h8 h9
    hcontent hsync
  have hpre := memcpy_prefix config.header.content sync0.hdr config.header.len hcontent
  have hmlen := memcpy_length config.header.content sync0.hdr config.header.len hcontent
    (by omega)
  have hff := first_frame DEBUG
    { sync0 with
        huart := huart
        hdr_len := config.header.len
        hdr := config.header.content.take config.header.len ++
          sync0.hdr.drop config.header.len
        frame_len := config.frame_len
        buffer := buffer
        user := config.user
        decode := callback
        hdr_idx := 0
        sync_state := UART_RX_SYNC_WAIT_HEAD }
    pre payload rfl h6
    ⟨by rw [← hsync]; exact hmlen, h8, by show config.header.len ≤ buffer.length; omega⟩
    rfl h7 hcap hsz hk1
    (fun m hm1 hm2 hh =>
      hno m hm1 hm2 ((header_at_congr _ _ _ _ _ hpre).mp hh))
    ((header_at_congr _ _ _ _ _ hpre).mpr hhit) hpay
  exact ⟨_, hinit, hff⟩

/-- C11, amended. After `UartRxSync_Init` on any buffer, let `pre` be the stream
up to the byte that completes the first occurrence of the header (the first
position `k ≥ L` at which the last `L` stream bytes are the header), followed
by `frame_len - L` payload bytes.  Provided the ring does not hold the header
while it still holds initial buffer bytes (after each of the first `L - 1`
bytes), the state is `UART_RX_SYNC_WAIT_HEAD` after every earlier byte,
`UART_RX_SYNC_RECEIVING` on that byte, and `UART_RX_SYNC_DMA_ACTIVE` when the
payload is in, the decoder having been called exactly once in total, on a view
whose first `frame_len - L` bytes are the payload. -/
theorem stream_first_frame (DEBUG : Bool) (sync0 : UartRxSync_t)
    (config : UartRxSync_Config_t) (buffer pre payload : List Byte)
    (hvalid : init_asserts config)
    (hcontent : config.header.len ≤ config.header.content.length)
    (hsync : sync0.hdr.length = UART_RX_SYNC_MAX_HDR)
    (hbuf : config.buffer = some buffer) (hcap : config.frame_len ≤ buffer.length)
    (hsz : config.frame_len < SIZE_MOD)
    (hk : config.header.len ≤ pre.length)
    (hstale : ∀ m, 1 ≤ m → m < config.header.len →
      ¬ header_at config.header.content config.header.len
          (buffer.take config.header.len ++ pre) m)
    (hfirst : ∀ m, config.header.len ≤ m → m < pre.length →
      ¬ ∀ i, i < config.header.len →
          pre[m - config.header.len + i]? = config.header.content[i]?)
    (hhit : ∀ i, i < config.header.len →
      pre[pre.length - config.header.len + i]? = config.header.content[i]?)
    (hpay : payload.length = config.frame_len - config.header.len) :
    ∃ sync trace0, UartRxSync_Init sync0 config = .ok (sync, trace0) ∧
      (∀ m, m < pre.length → ∃ link trace,
        feed DEBUG (Link.after_init sync trace0) (pre.take m) = .ok (link, trace) ∧
        link.sync.sync_state = UART_RX_SYNC_WAIT_HEAD ∧ decode_calls trace = []) ∧
      (∃ link trace,
        feed DEBUG (Link.after_init sync trace0) pre = .ok (link, trace) ∧
        link.sync.sync_state = UART_RX_SYNC_RECEIVING ∧ decode_calls trace = []) ∧
      (∃ link trace view,
        feed DEBUG (Link.after_init sync trace0) (pre ++ payload) = .ok (link, trace) ∧
        link.sync.sync_state = UART_RX_SYNC_DMA_ACTIVE ∧
        decode_calls trace = [Event.decode_call config.header.len view] ∧
        view.take payload.length = payload) := by
  have hlen : 0 < config.header.len := hvalid.2.1
  have hfl : config.header.len < config.frame_len := hvalid.2.2.1
  have hno : ∀ m, 1 ≤ m → m < pre.length →
      ¬ header_at config.header.content config.header.len
          (buffer.take config.header.len ++ pre) m := by
    intro m hm1 hm2
    by_cases hml : m < config.header.len
    · exact hstale m hm1 hml
    · intro hh
      exact hfirst m (by omega) hm2
        ((header_at_stream _ _ _ _ _ (by omega) (by omega)).mp hh)
  have hhit' : header_at config.header.content config.header.len
      (buffer.take config.header.len ++ pre) pre.length :=
    (header_at_stream _ _ _ _ _ (by omega) hk).mpr hhit
  obtain ⟨sync, hinit, hsearch, link1, link2, link3, trace, view, _, hdc, hfeed2, hst2,
    hfeed3, hst3, hview⟩ :=
    init_first_frame DEBUG sync0 config buffer pre payload hvalid hcontent hsync hbuf hcap hsz
      (by omega) hno hhit' hpay
  refine ⟨sync, _, hinit, hsearch, ⟨link2, _, hfeed2, hst2, ?_⟩,
    ⟨link3,
     (trace ++ [Event.Receive_DMA config.header.len (config.frame_len - config.header.len)]) ++
       [Event.AbortReceive, Event.Receive_DMA 0 config.frame_len,
        Event.decode_call config.header.len view],
     view, ?_, hst3, ?_, hview⟩⟩
  · rw [decode_calls_append, hdc]
    rfl
  · rw [feed_append, hfeed2]
    simp only []
    rw [hfeed3]
  · rw [decode_calls_append, decode_calls_append, hdc]
    rfl

/-- Witness for C11: noise `00`, header `AA 55`, payload `01 02 03 04` into a
zeroed buffer. -/
theorem stream_first_frame_witness :
    ∃ sync trace0, UartRxSync_Init ctx_raw config_example = .ok (sync, trace0) ∧
      (∀ m, m < ([0, 0xAA, 0x55] : List Byte).length → ∃ link trace,
        feed true (Link.after_init sync trace0) (([0, 0xAA, 0x55] : List Byte).take m) =
          .ok (link, trace) ∧
        link.sync.sync_state = UART_RX_SYNC_WAIT_HEAD ∧ decode_calls trace = []) ∧
      (∃ link trace,
        feed true (Link.after_init sync trace0) [0, 0xAA, 0x55] = .ok (link, trace) ∧
        link.sync.sync_state = UART_RX_SYNC_RECEIVING ∧ decode_calls trace = []) ∧
      (∃ link trace view,
        feed true (Link.after_init sync trace0) ([0, 0xAA, 0x55] ++ [1, 2, 3, 4]) =
          .ok (link, trace) ∧
        link.sync.sync_state = UART_RX_SYNC_DMA_ACTIVE ∧
        decode_calls trace = [Event.decode_call config_example.header.len view] ∧
        view.take ([1, 2, 3, 4] : List Byte).length = [1, 2, 3, 4]) :=
  stream_first_frame true ctx_raw config_example [0, 0, 0, 0, 0, 0] [0, 0xAA, 0x55] [1, 2, 3, 4]
    ⟨⟨_, rfl, _, rfl, rfl⟩, by decide, by decide, by decide, by decide, by decide, rfl⟩
    (by decide) (by decide) rfl (by decide) (by decide) (by decide) (by decide) (by decide)
    (by decide) (by decide)

/-- C11 as stated fails: with `AA` left at index 1 of the initial buffer, the
noise byte `55` of the stream `55, AA 55, 01 02 03 04` is taken for the end of
the header.  The state is `UART_RX_SYNC_RECEIVING` after the first byte, which
completes no header of the stream, and the decoder is called on `AA 55 01 02`. -/
theorem stream_stale_match :
    ([0x55] : List Byte).length < config_stale.header.len ∧
    ∃ sync trace0, UartRxSync_Init ctx_raw config_stale = .ok (sync, trace0) ∧
      (∃ link trace,
        feed true (Link.after_init sync trace0) [0x55] = .ok (link, trace) ∧
        link.sync.sync_state = UART_RX_SYNC_RECEIVING) ∧
      (∃ link trace,
        feed true (Link.after_init sync trace0) ([0x55] ++ [0xAA, 0x55] ++ [1, 2, 3, 4]) =
          .ok (link, trace) ∧
        decode_calls trace = [Event.decode_call 2 [0xAA, 0x55, 1, 2]]) :=
  ⟨by decide, _, _, rfl, ⟨_, _, rfl, rfl⟩, ⟨_, _, rfl, rfl⟩⟩

/-- C12. Header `AA 55`, `frame_len = 6`, any buffer of at least six bytes:
after `UartRxSync_Init`, the bytes `00` and `AA` leave the state
`UART_RX_SYNC_WAIT_HEAD`; on `55` exactly one request is made, a bulk reception
of 4 bytes at buffer offset 2, and the state is `UART_RX_SYNC_RECEIVING`; when
`01 02 03 04` have arrived the callback requests a bulk reception of 6 bytes at
offset 0, calls the decoder exactly once, on a view that starts with
`01 02 03 04`, and the state is `UART_RX_SYNC_DMA_ACTIVE`. -/
theorem scenario_AA55 (DEBUG : Bool) (sync0 : UartRxSync_t) (config : UartRxSync_Config_t)
    (buffer : List Byte)
    (hvalid : init_asserts config)
    (hheader : config.header = { len := 2, content := [0xAA, 0x55] })
    (hframe : config.frame_len = 6)
    (hsync : sync0.hdr.length = UART_RX_SYNC_MAX_HDR)
    (hbuf : config.buffer = some buffer) (hcap : 6 ≤ buffer.length) :
    ∃ sync, UartRxSync_Init sync0 config = .ok (sync, [Event.Receive_IT 0 1]) ∧
      (∃ link trace,
        feed DEBUG (Link.after_init sync [Event.Receive_IT 0 1]) [0x00] = .ok (link, trace) ∧
        link.sync.sync_state = UART_RX_SYNC_WAIT_HEAD ∧ decode_calls trace = []) ∧
      ∃ link1 link2 link3 trace view,
        feed DEBUG (Link.after_init sync [Event.Receive_IT 0 1]) [0x00, 0xAA] =
          .ok (link1, trace) ∧
        link1.sync.sync_state = UART_RX_SYNC_WAIT_HEAD ∧ decode_calls trace = [] ∧
        feed DEBUG (Link.after_init sync [Event.Receive_IT 0 1]) [0x00, 0xAA, 0x55] =
          .ok (link2, trace ++ [Event.Receive_DMA 2 4]) ∧
        link2.sync.sync_state = UART_RX_SYNC_RECEIVING ∧
        feed DEBUG link2 [0x01, 0x02, 0x03, 0x04] =
          .ok (link3, [Event.AbortReceive, Event.Receive_DMA 0 6, Event.decode_call 2 view]) ∧
        link3.sync.sync_state = UART_RX_SYNC_DMA_ACTIVE ∧
        view.take 4 = [0x01, 0x02, 0x03, 0x04] := by
  have hl : config.header.len = 2 := by rw [hheader]
  have hc : config.header.content = [0xAA, 0x55] := by rw [hheader]
  obtain ⟨a, b, rest, rfl⟩ : ∃ a b rest, buffer = a :: b :: rest := by
    match buffer, hcap with
    | a :: b :: rest, _ => exact ⟨a, b, rest, rfl⟩
  have hno : ∀ m, 1 ≤ m → m < ([0x00, 0xAA, 0x55] : List Byte).length →
      ¬ header_at config.header.content config.header.len
          ((a :: b :: rest).take config.header.len ++ [0x00, 0xAA, 0x55]) m := by
    intro m hm1 hm2 hh
    rw [hl, hc] at hh
    have hm : m = 1 ∨ m = 2 := by
      simp only [List.length_cons, List.length_nil] at hm2
      omega
    rcases hm with rfl | rfl
    · have := hh 1 (by omega)
      simp at this
    · have := hh 0 (by omega)
      simp at this
  have hhit : header_at config.header.content config.header.len
      ((a :: b :: rest).take config.header.len ++ [0x00, 0xAA, 0x55])
      ([0x00, 0xAA, 0x55] : List Byte).length := by
    rw [hl, hc]
    intro i hi
    have hi' : i = 0 ∨ i = 1 := by omega
    rcases hi' with rfl | rfl <;> simp
  obtain ⟨sync, hinit, hsearch, link1, link2, link3, trace, view, hfeed1, hdc, hfeed2, hst2,
    hfeed3, hst3, hview⟩ :=
    init_first_frame DEBUG sync0 config (a :: b :: rest) [0x00, 0xAA, 0x55]
      [0x01, 0x02, 0x03, 0x04] hvalid (by rw [hl, hc]; decide) hsync hbuf
      (by rw [hframe]; exact hcap) (by rw [hframe]; decide) (by decide) hno hhit
      (by rw [hframe, hl]; rfl)
  rw [hl, hframe] at hfeed2 hfeed3
  obtain ⟨link0, trace0, hfeed0, hst0, hdc0⟩ := hsearch 1 (by decide)
  obtain ⟨link1', trace1', hfeed1', hst1', _⟩ := hsearch 2 (by decide)
  have e1 : link1' = link1 ∧ trace1' = trace := by
    have h := hfeed1'.symm.trans hfeed1
    simp only [Except.ok.injEq, Prod.mk.injEq] at h
    exact h
  rw [e1.1] at hst1'
  exact ⟨sync, hinit, ⟨link0, trace0, hfeed0, hst0, hdc0⟩, link1, link2, link3, trace, view,
    hfeed1, hst1', hdc, hfeed2, hst2, hfeed3, hst3, hview⟩

/-- Witness for C12: the scenario on the example configuration. -/
theorem scenario_AA55_witness :
    ∃ sync, UartRxSync_Init ctx_raw config_example = .ok (sync, [Event.Receive_IT 0 1]) ∧
      (∃ link trace,
        feed true (Link.after_init sync [Event.Receive_IT 0 1]) [0x00] = .ok (link, trace) ∧
        link.sync.sync_state = UART_RX_SYNC_WAIT_HEAD ∧ decode_calls trace = []) ∧
      ∃ link1 link2 link3 trace view,
        feed true (Link.after_init sync [Event.Receive_IT 0 1]) [0x00, 0xAA] =
          .ok (link1, trace) ∧
        link1.sync.sync_state = UART_RX_SYNC_WAIT_HEAD ∧ decode_calls trace = [] ∧
        feed true (Link.after_init sync [Event.Receive_IT 0 1]) [0x00, 0xAA, 0x55] =
          .ok (link2, trace ++ [Event.Receive_DMA 2 4]) ∧
        link2.sync.sync_state = UART_RX_SYNC_RECEIVING ∧
        feed true link2 [0x01, 0x02, 0x03, 0x04] =
          .ok (link3, [Event.AbortReceive, Event.Receive_DMA 0 6, Event.decode_call 2 view]) ∧
        link3.sync.sync_state = UART_RX_SYNC_DMA_ACTIVE ∧
        view.take 4 = [0x01, 0x02, 0x03, 0x04] :=
  scenario_AA55 true ctx_raw config_example [0, 0, 0, 0, 0, 0]
    ⟨⟨_, rfl, _, rfl, rfl⟩, by decide, by decide, by decide, by decide, by decide, rfl⟩
    rfl rfl rfl rfl (by decide)

/-! ## Every outcome of the callback -/

/-- The index the search moves to: `hdr_idx + 1`, or 0 at the end of the ring. -/
theorem idx_next_lt (hdr_idx hdr_len : Nat) (hidx : hdr_idx < hdr_len) :
    (if size_add hdr_idx 1 = hdr_len then 0 else size_add hdr_idx 1) < hdr_len := by
  have hle : size_add hdr_idx 1 ≤ hdr_idx + 1 := Nat.mod_le _ _
  by_cases h : size_add hdr_idx 1 = hdr_len
  · rw [if_pos h]; omega
  · rw [if_neg h]; omega

/-- Whenever the callback returns, it has done one of five things. -/
theorem RxCallback_ok_cases (DEBUG : Bool) (sync sync' : UartRxSync_t) (trace : List Event)
    (hok : UartRxSync_RxCallback DEBUG sync = .ok (sync', trace)) :
    (sync.sync_state = UART_RX_SYNC_WAIT_HEAD ∧
      sync' = { HDR_MATCH DEBUG sync with sync_state := UART_RX_SYNC_RECEIVING } ∧
      trace = [Event.Receive_DMA sync.hdr_len (size_sub sync.frame_len sync.hdr_len)]) ∨
    (sync.sync_state = UART_RX_SYNC_WAIT_HEAD ∧
      sync' = { sync with
                hdr_idx := if size_add sync.hdr_idx 1 = sync.hdr_len then 0
                           else size_add sync.hdr_idx 1 } ∧
      trace = [Event.Receive_IT
        (if size_add sync.hdr_idx 1 = sync.hdr_len then 0 else size_add sync.hdr_idx 1) 1]) ∨
    (sync.sync_state = UART_RX_SYNC_RECEIVING ∧
      sync' = (decode DEBUG
        { RECEIVED DEBUG sync with sync_state := UART_RX_SYNC_DMA_ACTIVE }).1 ∧
      trace = [Event.AbortReceive, Event.Receive_DMA 0 sync.frame_len,
               Event.decode_call sync.hdr_len (sync.buffer.drop sync.hdr_len)]) ∨
    (sync.sync_state = UART_RX_SYNC_DMA_ACTIVE ∧
      sync' = { HDR_ERROR DEBUG (RECEIVED DEBUG sync) with
                sync_state := UART_RX_SYNC_WAIT_HEAD, hdr_idx := 0 } ∧
      trace = [Event.AbortReceive, Event.Receive_IT 0 1]) ∨
    (sync.sync_state = UART_RX_SYNC_DMA_ACTIVE ∧
      sync' = (decode DEBUG (RECEIVED DEBUG sync)).1 ∧
      trace = [Event.decode_call sync.hdr_len (sync.buffer.drop sync.hdr_len)]) := by
  cases hs : sync.sync_state with
  | UART_RX_SYNC_WAIT_HEAD =>
    unfold UartRxSync_RxCallback at hok
    simp only [hs] at hok
    cases hb : sync.buffer[sync.hdr_idx]? with
    | none => simp [hb] at hok
    | some newest =>
      cases hh : sync.hdr[size_sub sync.hdr_len 1]? with
      | none => simp [hb, hh] at hok
      | some last =>
        simp only [hb, hh] at hok
        by_cases hnl : newest = last
        · simp only [hnl, if_true] at hok
          cases hc : check_header sync.hdr sync.buffer
              (if size_add sync.hdr_idx 1 = sync.hdr_len then 0 else size_add sync.hdr_idx 1)
              sync.hdr_len with
          | error e => simp [hc] at hok
          | ok r =>
            cases r
            · simp only [hc, Except.ok.injEq, Prod.mk.injEq] at hok
              exact Or.inr (Or.inl ⟨rfl, hok.1.symm, hok.2.symm⟩)
            · simp only [hc, Except.ok.injEq, Prod.mk.injEq] at hok
              refine Or.inl ⟨rfl, hok.1.symm, ?_⟩
              rw [← hok.2, HDR_MATCH_hdr_len, HDR_MATCH_frame_len]
        · simp only [hnl, if_false, Except.ok.injEq, Prod.mk.injEq] at hok
          exact Or.inr (Or.inl ⟨rfl, hok.1.symm, hok.2.symm⟩)
  | UART_RX_SYNC_RECEIVING =>
    rw [RxCallback_receiving DEBUG sync hs] at hok
    simp only [Except.ok.injEq, Prod.mk.injEq] at hok
    exact Or.inr (Or.inr (Or.inl ⟨rfl, hok.1.symm, hok.2.symm⟩))
  | UART_RX_SYNC_DMA_ACTIVE =>
    have hr1 : (RECEIVED DEBUG sync).hdr = sync.hdr := by cases DEBUG <;> rfl
    have hr2 : (RECEIVED DEBUG sync).buffer = sync.buffer := by cases DEBUG <;> rfl
    have hr3 : (RECEIVED DEBUG sync).hdr_len = sync.hdr_len := by cases DEBUG <;> rfl
    unfold UartRxSync_RxCallback at hok
    simp only [hs, hr1, hr2, hr3] at hok
    cases hc : check_header sync.hdr sync.buffer 0 sync.hdr_len with
    | error e => simp [hc] at hok
    | ok r =>
      cases r
      · simp only [hc, Except.ok.injEq, Prod.mk.injEq] at hok
        exact Or.inr (Or.inr (Or.inr (Or.inl ⟨rfl, hok.1.symm, hok.2.symm⟩)))
      · simp only [hc, Except.ok.injEq] at hok
        have hd := (decode_fields DEBUG (RECEIVED DEBUG sync)).2.2
        rw [hr2, hr3] at hd
        refine Or.inr (Or.inr (Or.inr (Or.inr ⟨rfl, ?_, ?_⟩)))
        · rw [hok]
        · rw [hok] at hd
          exact hd

/-- The callback returns on every context whose memory is there and whose
search index is inside the header. -/
theorem RxCallback_returns (DEBUG : Bool) (sync : UartRxSync_t)
    (hlen : 1 ≤ sync.hdr_len) (hidx : sync.hdr_idx < sync.hdr_len) (hmem : memory_ok sync) :
    ∃ sync' trace, UartRxSync_RxCallback DEBUG sync = .ok (sync', trace) := by
  cases hs : sync.sync_state with
  | UART_RX_SYNC_WAIT_HEAD =>
    exact ⟨_, _, by rw [RxCallback_wait_head DEBUG sync hs hlen hidx hmem]⟩
  | UART_RX_SYNC_RECEIVING => exact ⟨_, _, RxCallback_receiving DEBUG sync hs⟩
  | UART_RX_SYNC_DMA_ACTIVE =>
    exact ⟨_, _, by rw [RxCallback_dma_active DEBUG sync hs hmem]⟩

/-! ## The decoder's verdict -/

/-- The callback on a context, up to the decoder and the decode counters, does
not depend on the decoder. -/
theorem RxCallback_forget (DEBUG : Bool) (sync : UartRxSync_t)
    (d : UartRxSync_DecodeData_Callback) :
    (UartRxSync_RxCallback DEBUG { sync with decode := d }).map
        (fun r => (forget_decode r.1, r.2)) =
      (UartRxSync_RxCallback DEBUG sync).map (fun r => (forget_decode r.1, r.2)) := by
  unfold UartRxSync_RxCallback
  cases hs : sync.sync_state with
  | UART_RX_SYNC_WAIT_HEAD =>
    simp only [hs]
    cases sync.buffer[sync.hdr_idx]? with
    | none => rfl
    | some newest =>
      cases sync.hdr[size_sub sync.hdr_len 1]? with
      | none => rfl
      | some last =>
        simp only []
        by_cases hnl : newest = last
        · simp only [hnl, if_true]
          cases check_header sync.hdr sync.buffer
              (if size_add sync.hdr_idx 1 = sync.hdr_len then 0 else size_add sync.hdr_idx 1)
              sync.hdr_len with
          | error e => rfl
          | ok r => cases r <;> cases DEBUG <;> rfl
        · simp only [hnl, if_false]
          rfl
  | UART_RX_SYNC_RECEIVING =>
    simp only [hs]
    cases DEBUG <;> cases hd : d sync.user (sync.buffer.drop sync.hdr_len) <;>
      cases hd0 : sync.decode sync.user (sync.buffer.drop sync.hdr_len) <;>
      simp [Except.map, decode, RECEIVED, DECODE_FAILED, DECODE_SUCCESS, forget_decode, hd, hd0]
  | UART_RX_SYNC_DMA_ACTIVE =>
    simp only [hs]
    have hr1 : ∀ s : UartRxSync_t, (RECEIVED DEBUG s).hdr = s.hdr := by
      intro s; cases DEBUG <;> rfl
    have hr2 : ∀ s : UartRxSync_t, (RECEIVED DEBUG s).buffer = s.buffer := by
      intro s; cases DEBUG <;> rfl
    have hr3 : ∀ s : UartRxSync_t, (RECEIVED DEBUG s).hdr_len = s.hdr_len := by
      intro s; cases DEBUG <;> rfl
    simp only [hr1, hr2, hr3]
    cases check_header sync.hdr sync.buffer 0 sync.hdr_len with
    | error e => rfl
    | ok r =>
      cases r
      · cases DEBUG <;> rfl
      · cases DEBUG <;> cases hd : d sync.user (sync.buffer.drop sync.hdr_len) <;>
          cases hd0 : sync.decode sync.user (sync.buffer.drop sync.hdr_len) <;>
          simp [Except.map, decode, RECEIVED, DECODE_FAILED, DECODE_SUCCESS, forget_decode,
            hd, hd0, hs]


theorem decode_calls_le_one (DEBUG : Bool) (sync sync' : UartRxSync_t) (trace : List Event)
    (hok : UartRxSync_RxCallback DEBUG sync = .ok (sync', trace)) :
    (decode_calls trace).length ≤ 1 := by
  rcases RxCallback_ok_cases DEBUG sync sync' trace hok with
    ⟨_, _, ht⟩ | ⟨_, _, ht⟩ | ⟨_, _, ht⟩ | ⟨_, _, ht⟩ | ⟨_, _, ht⟩ <;>
    subst ht <;> simp [decode_calls]

/-- C13. The verdict of the decoder has no part in synchronisation: run on the
same context with any two decoders, `UartRxSync_RxCallback` faults alike or
returns alike, with the same trace (so the same transport requests), the same
state and `hdr_idx`, and contexts that differ at most in the decoder and the
two decode counters; the decoder is called at most once per call.  On a
context whose memory is there the call returns. -/
theorem decode_outcome_ignored (DEBUG : Bool) (sync : UartRxSync_t)
    (d1 d2 : UartRxSync_DecodeData_Callback) :
    (∀ e, UartRxSync_RxCallback DEBUG { sync with decode := d1 } = .error e →
      UartRxSync_RxCallback DEBUG { sync with decode := d2 } = .error e) ∧
    (∀ s1 trace, UartRxSync_RxCallback DEBUG { sync with decode := d1 } = .ok (s1, trace) →
      ∃ s2, UartRxSync_RxCallback DEBUG { sync with decode := d2 } = .ok (s2, trace) ∧
        s2.sync_state = s1.sync_state ∧ s2.hdr_idx = s1.hdr_idx ∧
        forget_decode s2 = forget_decode s1 ∧
        (decode_calls trace).length ≤ 1) ∧
    (1 ≤ sync.hdr_len → sync.hdr_idx < sync.hdr_len → memory_ok sync →
      ∃ s1 trace, UartRxSync_RxCallback DEBUG { sync with decode := d1 } = .ok (s1, trace)) := by
  have hmap : (UartRxSync_RxCallback DEBUG { sync with decode := d1 }).map
      (fun r => (forget_decode r.1, r.2)) =
      (UartRxSync_RxCallback DEBUG { sync with decode := d2 }).map
        (fun r => (forget_decode r.1, r.2)) := by
    rw [RxCallback_forget DEBUG sync d1, RxCallback_forget DEBUG sync d2]
  refine ⟨?_, ?_, ?_⟩
  · intro e h1
    rw [h1] at hmap
    cases h2 : UartRxSync_RxCallback DEBUG { sync with decode := d2 } with
    | error e2 =>
      rw [h2] at hmap
      simp only [Except.map, Except.error.injEq] at hmap
      rw [hmap]
    | ok r =>
      rw [h2] at hmap
      simp [Except.map] at hmap
  · intro s1 trace h1
    rw [h1] at hmap
    cases h2 : UartRxSync_RxCallback DEBUG { sync with decode := d2 } with
    | error e2 =>
      rw [h2] at hmap
      simp [Except.map] at hmap
    | ok r =>
      obtain ⟨s2, trace2⟩ := r
      rw [h2] at hmap
      simp only [Except.map, Except.ok.injEq, Prod.mk.injEq] at hmap
      obtain ⟨hf, ht⟩ := hmap
      subst ht
      refine ⟨s2, rfl, ?_, ?_, hf.symm, decode_calls_le_one DEBUG _ _ _ h1⟩
      · exact (congrArg UartRxSync_t.sync_state hf).symm
      · exact (congrArg UartRxSync_t.hdr_idx hf).symm
  · intro hlen hidx hmem
    exact RxCallback_returns DEBUG { sync with decode := d1 } hlen hidx hmem

/-- Witness for C13: the steady-state frame of the example, decoded by a
decoder that accepts and by one that refuses. -/
theorem decode_outcome_ignored_witness :
    ∃ s2, UartRxSync_RxCallback true { ctx_dma_active with decode := fun _ _ => false } =
        .ok (s2, [Event.decode_call 2 [1, 2, 3, 4]]) ∧
      s2.sync_state = UART_RX_SYNC_DMA_ACTIVE ∧ s2.hdr_idx = 1 := by
  obtain ⟨s2, h1, h2, h3, _⟩ :=
    (decode_outcome_ignored true ctx_dma_active (fun _ _ => true) (fun _ _ => false)).2.1
      _ _ rfl
  exact ⟨s2, h1, h2, h3⟩

/-! ## What the handlers leave alone -/

theorem decode_keeps (DEBUG : Bool) (sync : UartRxSync_t) :
    (decode DEBUG sync).1.hdr = sync.hdr ∧ (decode DEBUG sync).1.hdr_len = sync.hdr_len ∧
    (decode DEBUG sync).1.frame_len = sync.frame_len ∧
    (decode DEBUG sync).1.buffer = sync.buffer ∧ (decode DEBUG sync).1.huart = sync.huart ∧
    (decode DEBUG sync).1.user = sync.user ∧ (decode DEBUG sync).1.decode = sync.decode := by
  cases DEBUG <;> cases hd : sync.decode sync.user (sync.buffer.drop sync.hdr_len) <;>
    simp [decode, DECODE_FAILED, DECODE_SUCCESS, hd]

theorem RxCallback_keeps (DEBUG : Bool) (sync sync' : UartRxSync_t) (trace : List Event)
    (hok : UartRxSync_RxCallback DEBUG sync = .ok (sync', trace)) :
    sync'.hdr = sync.hdr ∧ sync'.hdr_len = sync.hdr_len ∧
    sync'.frame_len = sync.frame_len ∧ sync'.buffer = sync.buffer ∧
    sync'.huart = sync.huart ∧ sync'.user = sync.user ∧ sync'.decode = sync.decode := by
  rcases RxCallback_ok_cases DEBUG sync sync' trace hok with
    ⟨_, hs, _⟩ | ⟨_, hs, _⟩ | ⟨_, hs, _⟩ | ⟨_, hs, _⟩ | ⟨_, hs, _⟩
  · subst hs; cases DEBUG <;> simp [HDR_MATCH]
  · subst hs; simp
  · subst hs
    have := decode_keeps DEBUG { RECEIVED DEBUG sync with sync_state := UART_RX_SYNC_DMA_ACTIVE }
    cases DEBUG <;> simpa [RECEIVED] using this
  · subst hs; cases DEBUG <;> simp [HDR_ERROR, RECEIVED]
  · subst hs
    have := decode_keeps DEBUG (RECEIVED DEBUG sync)
    cases DEBUG <;> simpa [RECEIVED] using this

theorem RxErrorHandler_keeps (DEBUG : Bool) (sync : UartRxSync_t) :
    (UartRxSync_RxErrorHandler DEBUG sync).1.hdr = sync.hdr ∧
    (UartRxSync_RxErrorHandler DEBUG sync).1.hdr_len = sync.hdr_len ∧
    (UartRxSync_RxErrorHandler DEBUG sync).1.frame_len = sync.frame_len ∧
    (UartRxSync_RxErrorHandler DEBUG sync).1.buffer = sync.buffer ∧
    (UartRxSync_RxErrorHandler DEBUG sync).1.huart = sync.huart ∧
    (UartRxSync_RxErrorHandler DEBUG sync).1.user = sync.user ∧
    (UartRxSync_RxErrorHandler DEBUG sync).1.decode = sync.decode := by
  unfold UartRxSync_RxErrorHandler
  by_cases he : sync.huart.ErrorCode = HAL_UART_ERROR_NONE
  · simp [he]
  · cases DEBUG <;> cases hs : sync.sync_state <;> simp [he, hs, RX_ERROR_EVENT]

/-- C14. After initialization the configuration does not change: whenever
`UartRxSync_RxCallback` returns, and for every call of
`UartRxSync_RxErrorHandler`, the context has the same `hdr`, `hdr_len`,
`frame_len`, buffer (the same bytes: neither handler writes one), transport
handle, user context and decode callback.  On a context whose memory is there
the callback returns. -/
theorem config_immutable (DEBUG : Bool) (sync : UartRxSync_t) :
    (∀ sync' trace, UartRxSync_RxCallback DEBUG sync = .ok (sync', trace) →
      sync'.hdr = sync.hdr ∧ sync'.hdr_len = sync.hdr_len ∧
      sync'.frame_len = sync.frame_len ∧ sync'.buffer = sync.buffer ∧
      sync'.huart = sync.huart ∧ sync'.user = sync.user ∧ sync'.decode = sync.decode) ∧
    ((UartRxSync_RxErrorHandler DEBUG sync).1.hdr = sync.hdr ∧
      (UartRxSync_RxErrorHandler DEBUG sync).1.hdr_len = sync.hdr_len ∧
      (UartRxSync_RxErrorHandler DEBUG sync).1.frame_len = sync.frame_len ∧
      (UartRxSync_RxErrorHandler DEBUG sync).1.buffer = sync.buffer ∧
      (UartRxSync_RxErrorHandler DEBUG sync).1.huart = sync.huart ∧
      (UartRxSync_RxErrorHandler DEBUG sync).1.user = sync.user ∧
      (UartRxSync_RxErrorHandler DEBUG sync).1.decode = sync.decode) ∧
    (1 ≤ sync.hdr_len → sync.hdr_idx < sync.hdr_len → memory_ok sync →
      ∃ sync' trace, UartRxSync_RxCallback DEBUG sync = .ok (sync', trace)) :=
  ⟨fun sync' trace hok => RxCallback_keeps DEBUG sync sync' trace hok,
   RxErrorHandler_keeps DEBUG sync,
   fun hlen hidx hmem => RxCallback_returns DEBUG sync hlen hidx hmem⟩

/-- Witness for C14: the header match of the example context leaves the
configuration as it was. -/
theorem config_immutable_witness :
    ∃ sync' trace, UartRxSync_RxCallback true ctx_example = .ok (sync', trace) ∧
      sync'.hdr = ctx_example.hdr ∧ sync'.hdr_len = ctx_example.hdr_len ∧
      sync'.frame_len = ctx_example.frame_len ∧ sync'.buffer = ctx_example.buffer := by
  obtain ⟨sync', trace, hok⟩ :=
    (config_immutable true ctx_example).2.2 (by decide) (by decide) (by decide)
  obtain ⟨h1, h2, h3, h4, _⟩ := (config_immutable true ctx_example).1 sync' trace hok
  exact ⟨sync', trace, hok, h1, h2, h3, h4⟩

/-! ## The search index -/

/-- When `UartRxSync_Init` returns, its assertions held and the context is the
initial one. -/
theorem Init_ok_inv (sync0 : UartRxSync_t) (config : UartRxSync_Config_t)
    (sync : UartRxSync_t) (trace : List Event)
    (hok : UartRxSync_Init sync0 config = .ok (sync, trace)) :
    init_asserts config ∧ sync.hdr_idx = 0 ∧ sync.hdr_len = config.header.len ∧
    sync.frame_len = config.frame_len ∧ sync.sync_state = UART_RX_SYNC_WAIT_HEAD ∧
    trace = [Event.Receive_IT 0 1] := by
  unfold UartRxSync_Init assert_param at hok
  rcases hu : config.huart with _ | huart
  · simp [hu] at hok
  rcases hb : config.buffer with _ | buffer
  · simp [hu, hb] at hok
  rcases hc : config.decode_data_callback with _ | callback
  · simp [hu, hb, hc] at hok
  by_cases h6 : 0 < config.header.len
  swap
  · simp [hu, hb, hc, h6] at hok
  by_cases h7 : config.header.len < config.frame_len
  swap
  · simp [hu, hb, hc, h6, h7] at hok
  by_cases h8 : config.header.len ≤ UART_RX_SYNC_MAX_HDR
  swap
  · simp [hu, hb, hc, h6, h7, h8] at hok
  by_cases h9 : config.user = 0
  · simp [hu, hb, hc, h6, h7, h8, h9] at hok
  rcases hd : huart.hdmarx with _ | hdmarx
  · simp [hu, hb, hc, h6, h7, h8, h9, hd] at hok
  by_cases hm : hdmarx.Init_Mode = DMA_Mode.DMA_CIRCULAR
  swap
  · simp [hu, hb, hc, h6, h7, h8, h9, hd, hm] at hok
  simp only [hu, hb, hc, h6, h7, h8, h9, hd, hm, gt_iff_lt, ne_eq, not_false_eq_true,
    decide_True, if_true, reduceCtorEq, Option.isSome_some] at hok
  cases hmc : memcpy sync0.hdr config.header.content config.header.len with
  | error e => simp [hmc] at hok
  | ok hdr =>
    simp only [hmc, Except.ok.injEq, Prod.mk.injEq] at hok
    obtain ⟨hs, ht⟩ := hok
    subst hs
    refine ⟨⟨⟨huart, hu, hdmarx, hd, hm⟩, h6, h7, h8, by simp [hb], h9, by simp [hc]⟩,
      rfl, rfl, rfl, rfl, ht.symm⟩

theorem RxCallback_idx (DEBUG : Bool) (sync sync' : UartRxSync_t) (trace : List Event)
    (hidx : sync.hdr_idx < sync.hdr_len)
    (hok : UartRxSync_RxCallback DEBUG sync = .ok (sync', trace)) :
    sync'.hdr_idx < sync'.hdr_len := by
  have hlen := (RxCallback_keeps DEBUG sync sync' trace hok).2.1
  rw [hlen]
  rcases RxCallback_ok_cases DEBUG sync sync' trace hok with
    ⟨_, hs, _⟩ | ⟨_, hs, _⟩ | ⟨_, hs, _⟩ | ⟨_, hs, _⟩ | ⟨_, hs, _⟩
  · subst hs; cases DEBUG <;> exact hidx
  · subst hs; exact idx_next_lt _ _ hidx
  · subst hs
    rw [(decode_fields DEBUG _).2.1]
    cases DEBUG <;> exact hidx
  · subst hs
    show 0 < sync.hdr_len
    omega
  · subst hs
    rw [(decode_fields DEBUG _).2.1]
    cases DEBUG <;> exact hidx

theorem RxErrorHandler_idx (DEBUG : Bool) (sync : UartRxSync_t)
    (hidx : sync.hdr_idx < sync.hdr_len) :
    (UartRxSync_RxErrorHandler DEBUG sync).1.hdr_idx <
      (UartRxSync_RxErrorHandler DEBUG sync).1.hdr_len := by
  rw [(RxErrorHandler_keeps DEBUG sync).2.1]
  unfold UartRxSync_RxErrorHandler
  by_cases he : sync.huart.ErrorCode = HAL_UART_ERROR_NONE
  · simp only [he, if_true]
    exact hidx
  · simp only [he, if_false]
    omega

/-- C15. `hdr_idx < hdr_len` is an invariant: it holds in the context that
`UartRxSync_Init` returns (and Init returns for every valid configuration), it
is kept by every `UartRxSync_RxCallback` that returns (and on a context whose
memory is there the callback returns) and by every
`UartRxSync_RxErrorHandler`, in any state; so it holds in every reachable
context. -/
theorem hdr_idx_invariant (DEBUG : Bool) :
    (∀ sync0 config, init_asserts config →
      config.header.len ≤ config.header.content.length →
      sync0.hdr.length = UART_RX_SYNC_MAX_HDR →
      ∃ sync trace, UartRxSync_Init sync0 config = .ok (sync, trace) ∧
        sync.hdr_idx < sync.hdr_len) ∧
    (∀ sync sync' trace, sync.hdr_idx < sync.hdr_len →
      UartRxSync_RxCallback DEBUG sync = .ok (sync', trace) →
      sync'.hdr_idx < sync'.hdr_len) ∧
    (∀ sync, sync.hdr_idx < sync.hdr_len → memory_ok sync →
      ∃ sync' trace, UartRxSync_RxCallback DEBUG sync = .ok (sync', trace) ∧
        sync'.hdr_idx < sync'.hdr_len) ∧
    (∀ sync, sync.hdr_idx < sync.hdr_len →
      (UartRxSync_RxErrorHandler DEBUG sync).1.hdr_idx <
        (UartRxSync_RxErrorHandler DEBUG sync).1.hdr_len) ∧
    (∀ sync, Reachable DEBUG sync → sync.hdr_idx < sync.hdr_len) := by
  refine ⟨?_, ?_, ?_, ?_, ?_⟩
  · intro sync0 config hvalid hcontent hsync
    obtain ⟨⟨huart, h1, hdmarx, h2, h3⟩, h6, h7, h8, hb, h9, hc⟩ := hvalid
    obtain ⟨buffer, h4⟩ := Option.ne_none_iff_exists'.mp hb
    obtain ⟨callback, h5⟩ := Option.isSome_iff_exists.mp hc
    exact ⟨_, _, Init_eq sync0 config huart hdmarx buffer callback h1 h2 h3 h4 h5 h6 h7 h8 h9
      hcontent hsync, h6⟩
  · intro sync sync' trace hidx hok
    exact RxCallback_idx DEBUG sync sync' trace hidx hok
  · intro sync hidx hmem
    obtain ⟨sync', trace, hok⟩ := RxCallback_returns DEBUG sync (by omega) hidx hmem
    exact ⟨sync', trace, hok, RxCallback_idx DEBUG sync sync' trace hidx hok⟩
  · intro sync hidx
    exact RxErrorHandler_idx DEBUG sync hidx
  · intro sync hreach
    induction hreach with
    | init hinit =>
      obtain ⟨hv, h0, hl, _⟩ := Init_ok_inv _ _ _ _ hinit
      rw [h0, hl]
      exact hv.2.1
    | transport buffer huart _ ih => exact ih
    | callback _ hok ih => exact RxCallback_idx DEBUG _ _ _ ih hok
    | error_handler _ ih => exact RxErrorHandler_idx DEBUG _ ih

/-- Witness for C15: the search step of the example context. -/
theorem hdr_idx_invariant_witness :
    (ctx_example.hdr_idx < ctx_example.hdr_len ∧ memory_ok ctx_example) ∧
    ∃ sync' trace, UartRxSync_RxCallback true ctx_example = .ok (sync', trace) ∧
      sync'.hdr_idx < sync'.hdr_len :=
  ⟨by decide, (hdr_idx_invariant true).2.2.1 ctx_example (by decide) (by decide)⟩

/-! ## Aborts -/

/-- C16. In the trace of any call of `UartRxSync_RxCallback` that returns, and
of any call of `UartRxSync_RxErrorHandler`, in any state, each abort of the
reception is followed at once by a reception request, single-byte or bulk (no
decoder call and no other request in between), so no trace ends with an abort.
On a context whose memory is there the callback returns. -/
theorem abort_then_rearm (DEBUG : Bool) (sync : UartRxSync_t) :
    (∀ sync' trace, UartRxSync_RxCallback DEBUG sync = .ok (sync', trace) →
      aborts_rearmed trace = true) ∧
    aborts_rearmed (UartRxSync_RxErrorHandler DEBUG sync).2 = true ∧
    (1 ≤ sync.hdr_len → sync.hdr_idx < sync.hdr_len → memory_ok sync →
      ∃ sync' trace, UartRxSync_RxCallback DEBUG sync = .ok (sync', trace)) := by
  refine ⟨?_, ?_, fun hlen hidx hmem => RxCallback_returns DEBUG sync hlen hidx hmem⟩
  · intro sync' trace hok
    rcases RxCallback_ok_cases DEBUG sync sync' trace hok with
      ⟨_, _, ht⟩ | ⟨_, _, ht⟩ | ⟨_, _, ht⟩ | ⟨_, _, ht⟩ | ⟨_, _, ht⟩ <;>
      subst ht <;> rfl
  · unfold UartRxSync_RxErrorHandler
    by_cases he : sync.huart.ErrorCode = HAL_UART_ERROR_NONE
    · simp only [he, if_true]
      rfl
    · simp only [he, if_false]
      rfl

/-- Witness for C16: the desynchronised steady-state frame of the example,
whose trace is an abort and then the single-byte request. -/
theorem abort_then_rearm_witness :
    ∃ sync' trace, UartRxSync_RxCallback true ctx_desync = .ok (sync', trace) ∧
      trace = [Event.AbortReceive, Event.Receive_IT 0 1] ∧ aborts_rearmed trace = true :=
  ⟨_, _, rfl, rfl, (abort_then_rearm true ctx_desync).1 _ _ rfl⟩

/-! ## The ring buffer of the search -/

/-- C17. From a context that searches with `hdr_idx = 0`, whatever the buffer
holds, feed a stream of `n ≥ hdr_len` bytes one at a time, each stored at the
offset of the outstanding single-byte request.  If none of the first `n - 1`
bytes ended the search, the `n`-th byte ends it (the state becomes
`UART_RX_SYNC_RECEIVING`) exactly when the last `hdr_len` bytes of the stream,
in arrival order, are the header; otherwise the search goes on. -/
theorem ring_window_correct (DEBUG : Bool) (sync : UartRxSync_t) (stream : List Byte)
    (hstate : sync.sync_state = UART_RX_SYNC_WAIT_HEAD) (hlen : 1 ≤ sync.hdr_len)
    (hmem : memory_ok sync) (hidx0 : sync.hdr_idx = 0)
    (hn : sync.hdr_len ≤ stream.length)
    (hquiet : ∀ m, m < stream.length → ∃ link trace,
      feed DEBUG { sync := sync
                   pending := some { offset := 0, size := 1, circular := false }
                   received := 0 } (stream.take m) = .ok (link, trace) ∧
      link.sync.sync_state = UART_RX_SYNC_WAIT_HEAD) :
    ∃ link trace,
      feed DEBUG { sync := sync
                   pending := some { offset := 0, size := 1, circular := false }
                   received := 0 } stream = .ok (link, trace) ∧
      (link.sync.sync_state = UART_RX_SYNC_RECEIVING ↔
        ∀ i, i < sync.hdr_len →
          stream[stream.length - sync.hdr_len + i]? = sync.hdr[i]?) ∧
      (link.sync.sync_state = UART_RX_SYNC_RECEIVING ∨
        link.sync.sync_state = UART_RX_SYNC_WAIT_HEAD) := by
  have hm3 : sync.hdr_len ≤ sync.buffer.length := hmem.2.2
  have hno : ∀ m, m < stream.length → ∀ m', 1 ≤ m' → m' ≤ m →
      ¬ header_at sync.hdr sync.hdr_len (sync.buffer.take sync.hdr_len ++ stream) m' := by
    intro m
    induction m with
    | zero => intro _ m' h1 h2; omega
    | succ m ih =>
      intro hm m' h1 h2
      by_cases hle : m' ≤ m
      · exact ih (by omega) m' h1 hle
      · have he : m' = m + 1 := by omega
        subst he
        intro hhit
        obtain ⟨B, link1, trace1, _, hfeed, _, _⟩ :=
          search_hit DEBUG sync stream hstate hlen hmem hidx0 (m + 1) (by omega) (by omega)
            (fun k hk1 hk2 => ih (by omega) k hk1 (by omega)) hhit
        obtain ⟨link2, trace2, hfeed2, hst2⟩ := hquiet (m + 1) hm
        rw [hfeed] at hfeed2
        simp only [Except.ok.injEq, Prod.mk.injEq] at hfeed2
        rw [← hfeed2.1] at hst2
        exact absurd (show UART_RX_SYNC_RECEIVING = UART_RX_SYNC_WAIT_HEAD from hst2)
          (by decide)
  have hn1 : 1 ≤ stream.length := by omega
  have hiff := header_at_stream sync.hdr sync.buffer stream sync.hdr_len stream.length hm3 hn
  by_cases hhit : header_at sync.hdr sync.hdr_len (sync.buffer.take sync.hdr_len ++ stream)
      stream.length
  · obtain ⟨B, link1, trace1, _, hfeed, _, _⟩ :=
      search_hit DEBUG sync stream hstate hlen hmem hidx0 stream.length hn1 (Nat.le_refl _)
        (fun k hk1 hk2 => hno (stream.length - 1) (by omega) k hk1 (by omega)) hhit
    rw [List.take_length] at hfeed
    exact ⟨_, _, hfeed, ⟨fun _ => hiff.mp hhit, fun _ => rfl⟩, Or.inl rfl⟩
  · obtain ⟨B, trace, hfeed, _, _, _⟩ :=
      search_run DEBUG sync stream hstate hlen hmem hidx0 stream.length (Nat.le_refl _)
        (fun k hk1 hk2 => by
          by_cases hk : k = stream.length
          · rw [hk]; exact hhit
          · exact hno (stream.length - 1) (by omega) k hk1 (by omega))
    rw [List.take_length] at hfeed
    refine ⟨_, _, hfeed, ⟨fun h => ?_, fun h => absurd (hiff.mpr h) hhit⟩, Or.inr hstate⟩
    have hs : sync.sync_state = UART_RX_SYNC_RECEIVING := h
    rw [hstate] at hs
    exact absurd hs (by decide)

/-- Witness for C17: `00 AA 55` after a reset; the third byte ends the search. -/
theorem ring_window_correct_witness :
    ∃ link trace,
      feed true { sync := ctx_reset
                  pending := some { offset := 0, size := 1, circular := false }
                  received := 0 } [0x00, 0xAA, 0x55] = .ok (link, trace) ∧
      (link.sync.sync_state = UART_RX_SYNC_RECEIVING ↔
        ∀ i, i < ctx_reset.hdr_len →
          ([0x00, 0xAA, 0x55] : List Byte)[([0x00, 0xAA, 0x55] : List Byte).length -
            ctx_reset.hdr_len + i]? = ctx_reset.hdr[i]?) ∧
      (link.sync.sync_state = UART_RX_SYNC_RECEIVING ∨
        link.sync.sync_state = UART_RX_SYNC_WAIT_HEAD) :=
  ring_window_correct true ctx_reset [0x00, 0xAA, 0x55] rfl (by decide) (by decide) rfl
    (by decide)
    (fun m hm => by
      have hm' : m = 0 ∨ m = 1 ∨ m = 2 := by
        simp only [List.length_cons, List.length_nil] at hm
        omega
      rcases hm' with rfl | rfl | rfl <;> exact ⟨_, _, rfl, rfl⟩)

/-! ## The test of the newest byte -/

theorem idx_next_eq (hdr_idx hdr_len : Nat) (hidx : hdr_idx < hdr_len)
    (hsz : hdr_len < SIZE_MOD) :
    (if size_add hdr_idx 1 = hdr_len then 0 else size_add hdr_idx 1) =
      (hdr_idx + 1) % hdr_len := by
  have hadd : size_add hdr_idx 1 = hdr_idx + 1 := by
    unfold size_add; exact Nat.mod_eq_of_lt (by omega)
  rw [hadd]
  by_cases he : hdr_idx + 1 = hdr_len
  · rw [if_pos he, he, Nat.mod_self]
  · rw [if_neg he, Nat.mod_eq_of_lt (by omega)]

/-- C18. In `UART_RX_SYNC_WAIT_HEAD` with `1 ≤ hdr_len` and `hdr_idx < hdr_len`
the callback returns what the naive variant returns, the same context and the
same requests: the test of the newest byte against the last header byte only
saves calls of `check_header`, whose window from `(hdr_idx + 1) mod hdr_len`
ends at index `hdr_idx`. -/
theorem precheck_is_optimisation (DEBUG : Bool) (sync : UartRxSync_t)
    (hstate : sync.sync_state = UART_RX_SYNC_WAIT_HEAD)
    (hlen : 1 ≤ sync.hdr_len) (hidx : sync.hdr_idx < sync.hdr_len) (hmem : memory_ok sync) :
    UartRxSync_RxCallback DEBUG sync = UartRxSync_RxCallback_naive DEBUG sync ∧
    ∃ sync' trace, UartRxSync_RxCallback_naive DEBUG sync = .ok (sync', trace) := by
  have hcl := RxCallback_wait_head DEBUG sync hstate hlen hidx hmem
  obtain ⟨hm1, hm2, hm3⟩ := id hmem
  have hmax : UART_RX_SYNC_MAX_HDR = 4 := rfl
  have hsz : sync.hdr_len < SIZE_MOD := by
    have : SIZE_MOD = 4294967296 := by unfold SIZE_MOD; norm_num
    omega
  have hnext := idx_next_eq sync.hdr_idx sync.hdr_len hidx hsz
  have hnlt : (sync.hdr_idx + 1) % sync.hdr_len < sync.hdr_len := Nat.mod_lt _ (by omega)
  have hnaive : UartRxSync_RxCallback_naive DEBUG sync = UartRxSync_RxCallback DEBUG sync := by
    rw [hcl]
    unfold UartRxSync_RxCallback_naive
    simp only [hstate, hnext]
    rw [check_header_eq sync.hdr sync.buffer _ sync.hdr_len (by omega) hm3 (by omega)]
    by_cases hw : window_matches sync.hdr sync.buffer ((sync.hdr_idx + 1) % sync.hdr_len)
        sync.hdr_len
    · simp only [hw, decide_True, if_true, HDR_MATCH_hdr_len, HDR_MATCH_frame_len]
    · simp only [hw, decide_False, if_false]
  refine ⟨hnaive.symm, ?_⟩
  rw [hnaive, hcl]
  exact ⟨_, _, rfl⟩

/-- Witness for C18: a newest byte `00`, for which the source does not call
`check_header` at all. -/
theorem precheck_is_optimisation_witness :
    (ctx_noise.sync_state = UART_RX_SYNC_WAIT_HEAD ∧ 1 ≤ ctx_noise.hdr_len ∧
      ctx_noise.hdr_idx < ctx_noise.hdr_len ∧ memory_ok ctx_noise) ∧
    UartRxSync_RxCallback true ctx_noise = UartRxSync_RxCallback_naive true ctx_noise :=
  ⟨by decide,
   (precheck_is_optimisation true ctx_noise (by decide) (by decide) (by decide)
      (by decide)).1⟩

/-! ## Bounds -/

/-- The callback reads no byte at an index from `hdr_len` on: it returns on
every context whose `hdr` and `buffer` hold `hdr_len` bytes and may hold no
more. -/
theorem RxCallback_no_fault (DEBUG : Bool) (sync : UartRxSync_t)
    (hlen : 1 ≤ sync.hdr_len) (hidx : sync.hdr_idx < sync.hdr_len)
    (hh : sync.hdr_len ≤ sync.hdr.length) (hb : sync.hdr_len ≤ sync.buffer.length)
    (hsz : sync.hdr_len < SIZE_MOD) :
    ∃ sync' trace, UartRxSync_RxCallback DEBUG sync = .ok (sync', trace) := by
  cases hs : sync.sync_state with
  | UART_RX_SYNC_WAIT_HEAD =>
    have hsub : size_sub sync.hdr_len 1 = sync.hdr_len - 1 :=
      size_sub_eq _ _ hlen hsz
    have hnext := idx_next_eq sync.hdr_idx sync.hdr_len hidx hsz
    have hnlt : (sync.hdr_idx + 1) % sync.hdr_len < sync.hdr_len := Nat.mod_lt _ (by omega)
    have hb' : sync.hdr_idx < sync.buffer.length := by omega
    have hh' : sync.hdr_len - 1 < sync.hdr.length := by omega
    unfold UartRxSync_RxCallback
    simp only [hs, hsub, hnext, List.getElem?_eq_getElem hb', List.getElem?_eq_getElem hh']
    rw [check_header_eq sync.hdr sync.buffer _ sync.hdr_len (by omega) hb hh]
    by_cases hl : sync.buffer[sync.hdr_idx] = sync.hdr[sync.hdr_len - 1]
    · by_cases hw : window_matches sync.hdr sync.buffer ((sync.hdr_idx + 1) % sync.hdr_len)
          sync.hdr_len
      · simp only [hl, hw, decide_True, if_true]
        exact ⟨_, _, rfl⟩
      · simp only [hl, hw, decide_False, if_true]
        exact ⟨_, _, rfl⟩
    · simp only [hl, if_false]
      exact ⟨_, _, rfl⟩
  | UART_RX_SYNC_RECEIVING => exact ⟨_, _, RxCallback_receiving DEBUG sync hs⟩
  | UART_RX_SYNC_DMA_ACTIVE =>
    have hr1 : (RECEIVED DEBUG sync).hdr = sync.hdr := by cases DEBUG <;> rfl
    have hr2 : (RECEIVED DEBUG sync).buffer = sync.buffer := by cases DEBUG <;> rfl
    have hr3 : (RECEIVED DEBUG sync).hdr_len = sync.hdr_len := by cases DEBUG <;> rfl
    unfold UartRxSync_RxCallback
    simp only [hs, hr1, hr2, hr3]
    rw [check_header_eq sync.hdr sync.buffer 0 sync.hdr_len (by omega) hb hh]
    by_cases hw : window_matches sync.hdr sync.buffer 0 sync.hdr_len
    · simp only [hw, decide_True]
      exact ⟨_, _, rfl⟩
    · simp only [hw, decide_False]
      exact ⟨_, _, rfl⟩

/-- C19. For a context with `1 ≤ hdr_len ≤ UART_RX_SYNC_MAX_HDR`,
`frame_len > hdr_len` (a `size_t`) and `hdr_idx < hdr_len`, in any state:
every reception request of `UartRxSync_RxCallback` and of
`UartRxSync_RxErrorHandler`, and the request of `UartRxSync_Init`, asks for at
least one byte and ends inside the first `frame_len` bytes of the buffer, the
difference `frame_len - hdr_len` not wrapping; and `UartRxSync_RxCallback` and
`check_header` read `hdr` and `buffer` only below `hdr_len`: they return when
the two regions hold exactly `hdr_len` bytes, where a read from `hdr_len` on
would be a fault. -/
theorem accesses_in_bounds (DEBUG : Bool) (sync : UartRxSync_t)
    (hlen : 1 ≤ sync.hdr_len) (hmax : sync.hdr_len ≤ UART_RX_SYNC_MAX_HDR)
    (hfl : sync.hdr_len < sync.frame_len) (hidx : sync.hdr_idx < sync.hdr_len)
    (hsz : sync.frame_len < SIZE_MOD) :
    (∀ sync' trace, UartRxSync_RxCallback DEBUG sync = .ok (sync', trace) →
      ∀ e, e ∈ trace → request_in_frame sync.frame_len e) ∧
    (∀ e, e ∈ (UartRxSync_RxErrorHandler DEBUG sync).2 → request_in_frame sync.frame_len e) ∧
    (∀ sync0 config sync1 trace, UartRxSync_Init sync0 config = .ok (sync1, trace) →
      ∀ e, e ∈ trace → request_in_frame config.frame_len e) ∧
    size_sub sync.frame_len sync.hdr_len = sync.frame_len - sync.hdr_len ∧
    (∀ hdr buffer : List Byte, hdr.length = sync.hdr_len → buffer.length = sync.hdr_len →
      ∃ sync' trace,
        UartRxSync_RxCallback DEBUG { sync with hdr := hdr, buffer := buffer } =
          .ok (sync', trace)) ∧
    (∀ (hdr buffer : List Byte) (idx : Nat), hdr.length = sync.hdr_len →
      buffer.length = sync.hdr_len → idx < sync.hdr_len →
      ∃ r, check_header hdr buffer idx sync.hdr_len = .ok r) := by
  have hsub := size_sub_eq sync.frame_len sync.hdr_len (by omega) hsz
  have hnext := idx_next_lt sync.hdr_idx sync.hdr_len hidx
  refine ⟨?_, ?_, ?_, hsub, ?_, ?_⟩
  · intro sync' trace hok e he
    rcases RxCallback_ok_cases DEBUG sync sync' trace hok with
      ⟨_, _, ht⟩ | ⟨_, _, ht⟩ | ⟨_, _, ht⟩ | ⟨_, _, ht⟩ | ⟨_, _, ht⟩
    · subst ht
      simp only [List.mem_singleton] at he
      subst he
      rw [hsub]
      exact ⟨by omega, by omega⟩
    · subst ht
      simp only [List.mem_singleton] at he
      subst he
      exact ⟨Nat.le_refl _, by omega⟩
    · subst ht
      simp only [List.mem_cons, List.mem_singleton, List.not_mem_nil, or_false] at he
      rcases he with rfl | rfl | rfl
      · trivial
      · exact ⟨by omega, by omega⟩
      · trivial
    · subst ht
      simp only [List.mem_cons, List.mem_singleton, List.not_mem_nil, or_false] at he
      rcases he with rfl | rfl
      · trivial
      · exact ⟨Nat.le_refl _, by omega⟩
    · subst ht
      simp only [List.mem_singleton] at he
      subst he
      trivial
  · intro e he
    unfold UartRxSync_RxErrorHandler at he
    by_cases hec : sync.huart.ErrorCode = HAL_UART_ERROR_NONE
    · simp [hec] at he
    · simp only [hec, if_false, List.mem_cons, List.mem_singleton, List.not_mem_nil,
        or_false] at he
      rcases he with rfl | rfl | rfl | rfl | rfl | rfl
      · trivial
      · trivial
      · trivial
      · trivial
      · trivial
      · exact ⟨Nat.le_refl _, by omega⟩
  · intro sync0 config sync1 trace hok e he
    obtain ⟨hv, _, _, _, _, ht⟩ := Init_ok_inv sync0 config sync1 trace hok
    subst ht
    simp only [List.mem_singleton] at he
    subst he
    have h6 : 0 < config.header.len := hv.2.1
    have h7 : config.header.len < config.frame_len := hv.2.2.1
    exact ⟨Nat.le_refl _, by omega⟩
  · intro hdr buffer hh hb
    have hmax4 : UART_RX_SYNC_MAX_HDR = 4 := rfl
    have hmod : SIZE_MOD = 4294967296 := by unfold SIZE_MOD; norm_num
    exact RxCallback_no_fault DEBUG { sync with hdr := hdr, buffer := buffer } hlen hidx
      (by show sync.hdr_len ≤ hdr.length; omega)
      (by show sync.hdr_len ≤ buffer.length; omega)
      (by show sync.hdr_len < SIZE_MOD; omega)
  · intro hdr buffer idx hh hb hi
    exact ⟨_, check_header_eq hdr buffer idx sync.hdr_len (by omega) (by omega) (by omega)⟩

/-- Witness for C19: the header match of the example, on regions of exactly two
bytes. -/
theorem accesses_in_bounds_witness :
    (1 ≤ ctx_cut.hdr_len ∧ ctx_cut.hdr_len ≤ UART_RX_SYNC_MAX_HDR ∧
      ctx_cut.hdr_len < ctx_cut.frame_len ∧ ctx_cut.hdr_idx < ctx_cut.hdr_len ∧
      ctx_cut.frame_len < SIZE_MOD) ∧
    (∀ e, e ∈ [Event.Receive_DMA 2 4] → request_in_frame ctx_cut.frame_len e) ∧
    size_sub ctx_cut.frame_len ctx_cut.hdr_len = ctx_cut.frame_len - ctx_cut.hdr_len :=
  ⟨by decide,
   (accesses_in_bounds true ctx_cut (by decide) (by decide) (by decide) (by decide)
      (by decide)).1 _ _ rfl,
   (accesses_in_bounds true ctx_cut (by decide) (by decide) (by decide) (by decide)
      (by decide)).2.2.2.1⟩

/-! ## The counters of the `DEBUG` build -/

theorem incr32_balance (d e s f : Nat) :
    ((incr32 d : Int) - ((incr32 e : Int) + (s : Int) + (f : Int))) % 4294967296 =
      ((d : Int) - ((e : Int) + (s : Int) + (f : Int))) % 4294967296 := by
  unfold incr32 SIZE_MOD
  push_cast
  omega

theorem decode_counts (sync : UartRxSync_t) :
    (decode true sync).1.data_received_cnt = sync.data_received_cnt ∧
    (decode true sync).1.hdr_error_cnt = sync.hdr_error_cnt ∧
    (((decode true sync).1.decode_success_cnt = incr32 sync.decode_success_cnt ∧
        (decode true sync).1.decode_fail_cnt = sync.decode_fail_cnt) ∨
      ((decode true sync).1.decode_success_cnt = sync.decode_success_cnt ∧
        (decode true sync).1.decode_fail_cnt = incr32 sync.decode_fail_cnt)) := by
  cases hd : sync.decode sync.user (sync.buffer.drop sync.hdr_len) <;>
    simp [decode, DECODE_FAILED, DECODE_SUCCESS, hd]

/-- What a call of the callback does to the four counters, in the `DEBUG` build. -/
theorem RxCallback_counts (sync sync' : UartRxSync_t) (trace : List Event)
    (hok : UartRxSync_RxCallback true sync = .ok (sync', trace)) :
    (sync.sync_state = UART_RX_SYNC_WAIT_HEAD ∧
      sync'.data_received_cnt = sync.data_received_cnt ∧
      sync'.hdr_error_cnt = sync.hdr_error_cnt ∧
      sync'.decode_success_cnt = sync.decode_success_cnt ∧
      sync'.decode_fail_cnt = sync.decode_fail_cnt) ∨
    (sync.sync_state ≠ UART_RX_SYNC_WAIT_HEAD ∧
      sync'.data_received_cnt = incr32 sync.data_received_cnt ∧
      ((sync'.hdr_error_cnt = incr32 sync.hdr_error_cnt ∧
          sync'.decode_success_cnt = sync.decode_success_cnt ∧
          sync'.decode_fail_cnt = sync.decode_fail_cnt) ∨
        (sync'.hdr_error_cnt = sync.hdr_error_cnt ∧
          sync'.decode_success_cnt = incr32 sync.decode_success_cnt ∧
          sync'.decode_fail_cnt = sync.decode_fail_cnt) ∨
        (sync'.hdr_error_cnt = sync.hdr_error_cnt ∧
          sync'.decode_success_cnt = sync.decode_success_cnt ∧
          sync'.decode_fail_cnt = incr32 sync.decode_fail_cnt))) := by
  rcases RxCallback_ok_cases true sync sync' trace hok with
    ⟨hst, hs, _⟩ | ⟨hst, hs, _⟩ | ⟨hst, hs, _⟩ | ⟨hst, hs, _⟩ | ⟨hst, hs, _⟩
  · subst hs
    exact Or.inl ⟨hst, rfl, rfl, rfl, rfl⟩
  · subst hs
    exact Or.inl ⟨hst, rfl, rfl, rfl, rfl⟩
  · subst hs
    obtain ⟨h1, h2, h3⟩ := decode_counts
      { RECEIVED true sync with sync_state := UART_RX_SYNC_DMA_ACTIVE }
    refine Or.inr ⟨by rw [hst]; decide, h1, ?_⟩
    rcases h3 with ⟨h3, h4⟩ | ⟨h3, h4⟩
    · exact Or.inr (Or.inl ⟨h2, h3, h4⟩)
    · exact Or.inr (Or.inr ⟨h2, h3, h4⟩)
  · subst hs
    exact Or.inr ⟨by rw [hst]; decide, rfl, Or.inl ⟨rfl, rfl, rfl⟩⟩
  · subst hs
    obtain ⟨h1, h2, h3⟩ := decode_counts (RECEIVED true sync)
    refine Or.inr ⟨by rw [hst]; decide, h1, ?_⟩
    rcases h3 with ⟨h3, h4⟩ | ⟨h3, h4⟩
    · exact Or.inr (Or.inl ⟨h2, h3, h4⟩)
    · exact Or.inr (Or.inr ⟨h2, h3, h4⟩)

/-- C20. In the `DEBUG` build every call of `UartRxSync_RxCallback` that
returns leaves the four counters alone when made in
`UART_RX_SYNC_WAIT_HEAD`, and otherwise increments `data_received_cnt` by 1
together with exactly one of `hdr_error_cnt`, `decode_success_cnt` and
`decode_fail_cnt` (increments on `uint32_t`); `UartRxSync_RxErrorHandler`
changes none of the four.  So `data_received_cnt - (hdr_error_cnt +
decode_success_cnt + decode_fail_cnt)` modulo `2 ^ 32` is kept by every
handler call.  On a context whose memory is there the callback returns. -/
theorem counter_conservation (sync : UartRxSync_t) :
    (∀ sync' trace, UartRxSync_RxCallback true sync = .ok (sync', trace) →
      ((sync.sync_state = UART_RX_SYNC_WAIT_HEAD ∧
          sync'.data_received_cnt = sync.data_received_cnt ∧
          sync'.hdr_error_cnt = sync.hdr_error_cnt ∧
          sync'.decode_success_cnt = sync.decode_success_cnt ∧
          sync'.decode_fail_cnt = sync.decode_fail_cnt) ∨
        (sync.sync_state ≠ UART_RX_SYNC_WAIT_HEAD ∧
          sync'.data_received_cnt = incr32 sync.data_received_cnt ∧
          ((sync'.hdr_error_cnt = incr32 sync.hdr_error_cnt ∧
              sync'.decode_success_cnt = sync.decode_success_cnt ∧
              sync'.decode_fail_cnt = sync.decode_fail_cnt) ∨
            (sync'.hdr_error_cnt = sync.hdr_error_cnt ∧
              sync'.decode_success_cnt = incr32 sync.decode_success_cnt ∧
              sync'.decode_fail_cnt = sync.decode_fail_cnt) ∨
            (sync'.hdr_error_cnt = sync.hdr_error_cnt ∧
              sync'.decode_success_cnt = sync.decode_success_cnt ∧
              sync'.decode_fail_cnt = incr32 sync.decode_fail_cnt)))) ∧
      counter_balance sync' = counter_balance sync) ∧
    ((UartRxSync_RxErrorHandler true sync).1.data_received_cnt = sync.data_received_cnt ∧
      (UartRxSync_RxErrorHandler true sync).1.hdr_error_cnt = sync.hdr_error_cnt ∧
      (UartRxSync_RxErrorHandler true sync).1.decode_success_cnt = sync.decode_success_cnt ∧
      (UartRxSync_RxErrorHandler true sync).1.decode_fail_cnt = sync.decode_fail_cnt ∧
      counter_balance (UartRxSync_RxErrorHandler true sync).1 = counter_balance sync) ∧
    (1 ≤ sync.hdr_len → sync.hdr_idx < sync.hdr_len → memory_ok sync →
      ∃ sync' trace, UartRxSync_RxCallback true sync = .ok (sync', trace)) := by
  refine ⟨?_, ?_, fun hlen hidx hmem => RxCallback_returns true sync hlen hidx hmem⟩
  · intro sync' trace hok
    have hc := RxCallback_counts sync sync' trace hok
    refine ⟨hc, ?_⟩
    unfold counter_balance
    rcases hc with ⟨_, h1, h2, h3, h4⟩ | ⟨_, h1, ⟨h2, h3, h4⟩ | ⟨h2, h3, h4⟩ | ⟨h2, h3, h4⟩⟩
    · rw [h1, h2, h3, h4]
    · rw [h1, h2, h3, h4]
      exact incr32_balance _ _ _ _
    · rw [h1, h2, h3, h4]
      have := incr32_balance sync.data_received_cnt sync.decode_success_cnt
        sync.hdr_error_cnt sync.decode_fail_cnt
      omega
    · rw [h1, h2, h3, h4]
      have := incr32_balance sync.data_received_cnt sync.decode_fail_cnt
        sync.hdr_error_cnt sync.decode_success_cnt
      omega
  · have hf : (UartRxSync_RxErrorHandler true sync).1.data_received_cnt =
          sync.data_received_cnt ∧
        (UartRxSync_RxErrorHandler true sync).1.hdr_error_cnt = sync.hdr_error_cnt ∧
        (UartRxSync_RxErrorHandler true sync).1.decode_success_cnt =
          sync.decode_success_cnt ∧
        (UartRxSync_RxErrorHandler true sync).1.decode_fail_cnt = sync.decode_fail_cnt := by
      unfold UartRxSync_RxErrorHandler
      by_cases he : sync.huart.ErrorCode = HAL_UART_ERROR_NONE
      · simp [he]
      · cases hs : sync.sync_state <;> simp [he, hs, RX_ERROR_EVENT]
    obtain ⟨h1, h2, h3, h4⟩ := hf
    refine ⟨h1, h2, h3, h4, ?_⟩
    unfold counter_balance
    rw [h1, h2, h3, h4]

/-- Witness for C20: the steady-state frame of the example counts one frame
received and one decode success. -/
theorem counter_conservation_witness :
    ∃ sync' trace, UartRxSync_RxCallback true ctx_dma_active = .ok (sync', trace) ∧
      sync'.data_received_cnt = 1 ∧ sync'.decode_success_cnt = 1 ∧
      counter_balance sync' = counter_balance ctx_dma_active :=
  ⟨_, _, rfl, rfl, rfl, ((counter_conservation ctx_dma_active).1 _ _ rfl).2⟩

end UartRxSync
